import Mathlib

/-!
# Conway's Game of Life on a bounded 20x20 grid (`src/main.c`)

A shallow embedding of the simulation core of `src/main.c`:

* the global `int grid[SQUARES_X][SQUARES_Y]` is a `Grid`, a total map from the
  index type `Fin 20 × Fin 20` to `Int`; every C subscript `grid[i][j]` with
  `int` indices goes through `Grid.read` / `Grid.write`, which return `none`
  when an index leaves `[0,20)` (undefined behaviour in C);
* `for (int i = 0; i < n; i++)` loops are `forLoop`, a fold over `0, 1, .., n-1`
  threading the mutated variables;
* `float` values of the camera are rationals (exact arithmetic);
* C `int` values are `Int`; no value of the program reaches the 32-bit limits
  on grids whose cells are 0 or 1 (counts are at most 8, the frame counter is
  reset at 31).
-/

namespace GameOfLife

/-! ## Defines and macros (`src/main.c`, lines 14-18) -/

abbrev FPS : Int := 60
abbrev SQUARE_SIZE : Int := 32
abbrev SQUARES_X : Nat := 20
abbrev SQUARES_Y : Nat := 20
abbrev UPDATES_PER_SECOND : Int := 2

/-! ## The grid -/

/-- The array type `int [SQUARES_X][SQUARES_Y]`. -/
abbrev Grid : Type := Fin SQUARES_X → Fin SQUARES_Y → Int

/-- The initialiser `{ 0 }`: every cell is 0. -/
def zeroGrid : Grid := fun _ _ => 0

/-- The rvalue `grid[i][j]` for `int` indices; `none` when an index is out of range. -/
def Grid.read (g : Grid) (i j : Int) : Option Int :=
  if h : 0 ≤ i ∧ i < (SQUARES_X : Int) ∧ 0 ≤ j ∧ j < (SQUARES_Y : Int) then
    some (g ⟨i.toNat, by omega⟩ ⟨j.toNat, by omega⟩)
  else none

/-- The grid with cell `(a, b)` replaced by `v`. -/
def Grid.set (g : Grid) (a : Fin SQUARES_X) (b : Fin SQUARES_Y) (v : Int) : Grid :=
  fun a' b' => if a' = a ∧ b' = b then v else g a' b'

/-- The assignment `grid[i][j] = v` for `int` indices; `none` when an index is out of range. -/
def Grid.write (g : Grid) (i j : Int) (v : Int) : Option Grid :=
  if h : 0 ≤ i ∧ i < (SQUARES_X : Int) ∧ 0 ≤ j ∧ j < (SQUARES_Y : Int) then
    some (g.set ⟨i.toNat, by omega⟩ ⟨j.toNat, by omega⟩ v)
  else none

/-- The loop `for (int i = 0; i < n; i++) body(i)` over the variables `σ` it mutates. -/
def forLoop {σ : Type} (n : Nat) (body : Int → σ → Option σ) (s : σ) : Option σ :=
  (List.range n).foldlM (fun s (i : Nat) => body (i : Int) s) s

/-- C logical negation `!v` on `int`. -/
def lnot (v : Int) : Int := if v = 0 then 1 else 0

/-! ## `getLiveNeighborCount` (lines 190-204) -/

/-- One line `if (c) count += grid[i][j];` of `getLiveNeighborCount`. -/
def addCellIf (grid : Grid) (c : Prop) [Decidable c] (i j : Int) (count : Int) : Option Int :=
  if c then (grid.read i j).map (fun v => count + v) else some count

/-- The function `getLiveNeighborCount(x, y)`, reading the global `grid`. -/
def getLiveNeighborCount (grid : Grid) (x y : Int) : Option Int := do
  let count : Int := 0
  let count ← addCellIf grid (x > 0 ∧ y > 0) (x - 1) (y - 1) count
  let count ← addCellIf grid (y > 0) x (y - 1) count
  let count ← addCellIf grid (x < (SQUARES_X : Int) - 1 ∧ y > 0) (x + 1) (y - 1) count
  let count ← addCellIf grid (x > 0) (x - 1) y count
  let count ← addCellIf grid (x < (SQUARES_X : Int) - 1) (x + 1) y count
  let count ← addCellIf grid (x > 0 ∧ y < (SQUARES_Y : Int) - 1) (x - 1) (y + 1) count
  let count ← addCellIf grid (y < (SQUARES_Y : Int) - 1) x (y + 1) count
  let count ← addCellIf grid (x < (SQUARES_X : Int) - 1 ∧ y < (SQUARES_Y : Int) - 1) (x + 1) (y + 1) count
  pure count

/-! ## The generation step (lines 124-150) -/

/-- The variables of the generation block: the global `grid` and the local `newGrid`. -/
structure StepVars where
  grid : Grid
  newGrid : Grid

/-- The body of the inner rule loop (lines 128-140) at `(x, y)`. -/
def ruleBody (x y : Int) (s : StepVars) : Option StepVars := do
  let liveNeighbors ← getLiveNeighborCount s.grid x y
  let ng := s.newGrid
  -- #1
  let ng ← if liveNeighbors < 2 then ng.write x y 0 else pure ng
  -- #2
  let ng ← if liveNeighbors = 2 ∨ liveNeighbors = 3 then
      (s.grid.read x y).bind (fun v => ng.write x y v) else pure ng
  -- #3
  let ng ← if liveNeighbors > 3 then ng.write x y 0 else pure ng
  -- #4
  let ng ← if liveNeighbors = 3 then
      (s.grid.read x y).bind (fun v => if v = 0 then ng.write x y 1 else pure ng) else pure ng
  pure { s with newGrid := ng }

/-- The body of the inner copy loop (line 147) at `(x, y)`. -/
def copyBody (x y : Int) (s : StepVars) : Option StepVars :=
  (s.newGrid.read x y).bind fun v =>
  (s.grid.write x y v).bind fun g =>
  pure { s with grid := g }

/-- The block run when `!paused` holds at the clock threshold (lines 125-149): the new
value of the global `grid`. -/
def generationStep (grid : Grid) : Option Grid := do
  let s : StepVars := { grid := grid, newGrid := zeroGrid }
  let s ← forLoop SQUARES_X (fun x s => forLoop SQUARES_Y (fun y s => ruleBody x y s) s) s
  let s ← forLoop SQUARES_X (fun x s => forLoop SQUARES_Y (fun y s => copyBody x y s) s) s
  pure s.grid

/-! ## The frame function `UpdateDrawFrame` (lines 63-188)

The drawing calls (lines 157-186) read the state and change none of it; they are not part
of the embedding. -/

/-- The raylib type `Vector2`, over exact rationals. -/
structure Vector2 where
  x : ℚ
  y : ℚ

/-- The raylib type `Camera2D`, over exact rationals. -/
structure Camera2D where
  offset : Vector2
  target : Vector2
  rotation : ℚ
  zoom : ℚ

/-- Modelled from the spec: raylib's `GetScreenToWorld2D` is not part of `src/`; the spec
gives the mapping `worldPoint = (screenPoint - offset) / zoom + target`. -/
def GetScreenToWorld2D (position : Vector2) (camera : Camera2D) : Vector2 :=
  { x := (position.x - camera.offset.x) / camera.zoom + camera.target.x
    y := (position.y - camera.offset.y) / camera.zoom + camera.target.y }

/-- Modelled from the spec: raymath's `Vector2Scale` is not part of `src/`; componentwise
scaling, as in the spec's `target += -Δ/zoom`. -/
def Vector2Scale (v : Vector2) (scale : ℚ) : Vector2 :=
  { x := v.x * scale, y := v.y * scale }

/-- Modelled from the spec: raymath's `Vector2Add` is not part of `src/`; componentwise
sum, as in the spec's `target += -Δ/zoom`. -/
def Vector2Add (v1 v2 : Vector2) : Vector2 :=
  { x := v1.x + v2.x, y := v1.y + v2.y }

/-- The values the raylib input queries return during one frame. -/
structure Input where
  /-- The value of `GetMousePosition()`. -/
  mousePosition : Vector2
  /-- The value of `GetMouseDelta()`. -/
  mouseDelta : Vector2
  /-- The value of `IsMouseButtonDown(MOUSE_BUTTON_RIGHT)`. -/
  rightDown : Bool
  /-- The value of `GetMouseWheelMove()`. -/
  wheel : ℚ
  /-- The value of `IsKeyPressed(KEY_SPACE)`. -/
  spacePressed : Bool
  /-- The value of `IsMouseButtonPressed(MOUSE_BUTTON_LEFT)`. -/
  leftPressed : Bool
  /-- The value of `IsKeyPressed(KEY_C)`. -/
  cPressed : Bool

/-- The variables that persist between frames: the globals `camera`, `grid`, `paused`
and the function-static `updates`. -/
structure State where
  camera : Camera2D
  grid : Grid
  paused : Int
  updates : Int

/-- The state when `UpdateDrawFrame` is first called: `grid = { 0 }`, `paused = 1`,
`camera = { 0 }` with `camera.zoom = 1.0f` (line 42), `updates = 0`. -/
def initialState : State :=
  { camera := { offset := ⟨0, 0⟩, target := ⟨0, 0⟩, rotation := 0, zoom := 1 }
    grid := zeroGrid
    paused := 1
    updates := 0 }

/-- The constant `zoomIncrement = 0.125f` (line 88). -/
def zoomIncrement : ℚ := 1 / 8

/-- The conversion `(int)f` of a `float`: truncation toward zero. -/
def truncToInt (f : ℚ) : Int := if 0 ≤ f then Int.floor f else Int.ceil f

/-- Lines 69-92: pan on right button, zoom on wheel. -/
def updateCamera (camera : Camera2D) (mouseWorldPos : Vector2) (inp : Input) : Camera2D :=
  let camera :=
    if inp.rightDown then
      let delta := inp.mouseDelta
      let delta := Vector2Scale delta (-1 / camera.zoom)
      { camera with target := Vector2Add camera.target delta }
    else camera
  let wheel := inp.wheel
  if wheel ≠ 0 then
    let camera := { camera with offset := inp.mousePosition }
    let camera := { camera with target := mouseWorldPos }
    let camera := { camera with zoom := camera.zoom + wheel * zoomIncrement }
    if camera.zoom < zoomIncrement then { camera with zoom := zoomIncrement } else camera
  else camera

/-- Line 95: `if (IsKeyPressed(KEY_SPACE)) paused = !paused;`. -/
def togglePause (paused : Int) (inp : Input) : Int :=
  if inp.spacePressed then lnot paused else paused

/-- Lines 98-109: toggle the square under the mouse on a left click, if paused. -/
def handleClick (paused : Int) (mouseWorldPos : Vector2) (inp : Input) (grid : Grid) :
    Option Grid :=
  if inp.leftPressed = true ∧ paused ≠ 0 then
    if mouseWorldPos.x > 0 ∧ mouseWorldPos.x < ((SQUARE_SIZE * SQUARES_X : Int) : ℚ) ∧
        mouseWorldPos.y > 0 ∧ mouseWorldPos.y < ((SQUARE_SIZE * SQUARES_Y : Int) : ℚ) then
      let x := (truncToInt mouseWorldPos.x).tdiv SQUARE_SIZE
      let y := (truncToInt mouseWorldPos.y).tdiv SQUARE_SIZE
      (grid.read x y).bind fun v => grid.write x y (lnot v)
    else pure grid
  else pure grid

/-- Lines 112-118: clear the grid with "c", if paused. -/
def handleClear (paused : Int) (inp : Input) (grid : Grid) : Option Grid :=
  if inp.cPressed = true ∧ paused ≠ 0 then
    forLoop SQUARES_X (fun x g => forLoop SQUARES_Y (fun y g => g.write x y 0) g) grid
  else pure grid

/-- Lines 121-153: the fixed-rate simulation update on `grid` and the static `updates`. -/
def simulationTick (paused : Int) (grid : Grid) (updates : Int) : Option (Grid × Int) :=
  -- `updates++ >= FPS/UPDATES_PER_SECOND` compares the value before the increment
  let reached := decide (updates ≥ FPS.tdiv UPDATES_PER_SECOND)
  let updates := updates + 1
  if reached then
    (if lnot paused ≠ 0 then generationStep grid else pure grid).bind fun grid =>
    pure (grid, 0)
  else pure (grid, updates)

/-- The update part of `UpdateDrawFrame` (lines 63-153). -/
def UpdateDrawFrame (s : State) (inp : Input) : Option State := do
  let mouseWorldPos := GetScreenToWorld2D inp.mousePosition s.camera
  let camera := updateCamera s.camera mouseWorldPos inp
  let paused := togglePause s.paused inp
  let grid ← handleClick paused mouseWorldPos inp s.grid
  let grid ← handleClear paused inp grid
  let (grid, updates) ← simulationTick paused grid s.updates
  pure { camera := camera, grid := grid, paused := paused, updates := updates }

/-! ## Specification-side definitions -/

/-- A grid of cell states: every cell holds 0 (dead) or 1 (alive). -/
def Grid.binary (g : Grid) : Prop := ∀ a b, g a b = 0 ∨ g a b = 1

/-- Whether the position `(i, j)` lies inside `[0,20) x [0,20)`. -/
def onGrid (p : Int × Int) : Bool :=
  decide (0 ≤ p.1 ∧ p.1 < (SQUARES_X : Int) ∧ 0 ≤ p.2 ∧ p.2 < (SQUARES_Y : Int))

/-- The eight offsets `(dx, dy)` with `dx, dy ∈ {-1, 0, 1}` and `(dx, dy) ≠ (0, 0)`. -/
def mooreOffsets : List (Int × Int) :=
  [(-1, -1), (0, -1), (1, -1), (-1, 0), (1, 0), (-1, 1), (0, 1), (1, 1)]

/-- Specification of the neighbour counter, following the spec's words: the number of
live cells among the positions `(x+dx, y+dy)` of the Moore neighbourhood that lie on the
grid. -/
def liveNeighborSpec (g : Grid) (x y : Int) : Nat :=
  ((mooreOffsets.map fun d => (x + d.1, y + d.2)).filter onGrid).countP
    fun p => g.read p.1 p.2 == some 1

/-- The grid in which exactly the cells listed in `l` are alive. -/
def patternGrid (l : List (Int × Int)) : Grid :=
  fun a b => if ((a.val : Int), (b.val : Int)) ∈ l then 1 else 0

/-- Running the generation step `n` times. -/
def iterateStep : Nat → Grid → Option Grid
  | 0, g => some g
  | n + 1, g => (generationStep g).bind (iterateStep n)

/-! ## Concrete states and inputs used as instances -/

/-- A frame in which no button or key is pressed and the mouse rests at the origin. -/
def idleInput : Input :=
  { mousePosition := ⟨0, 0⟩, mouseDelta := ⟨0, 0⟩, rightDown := false, wheel := 0,
    spacePressed := false, leftPressed := false, cPressed := false }

/-- A running (unpaused) state holding a horizontal blinker, five frames into the clock. -/
def playingState : State :=
  { initialState with grid := patternGrid [(1, 1), (2, 1), (3, 1)], paused := 0, updates := 5 }

/-- A left click and a press of "c" in the same frame, the mouse at pixel `(40, 40)`. -/
def clickAndClearInput : Input :=
  { idleInput with mousePosition := ⟨40, 40⟩, leftPressed := true, cPressed := true }

/-- A left click with the mouse on the leftmost pixel column, at pixel `(0, 5)`. -/
def borderClick : Input :=
  { idleInput with mousePosition := ⟨0, 5⟩, leftPressed := true }

/-! ## Closed forms used in the proofs -/

/-- The value of `grid[i][j]` when `(i, j)` is on the grid, and 0 otherwise. -/
def Grid.cellOrZero (g : Grid) (i j : Int) : Int := (g.read i j).getD 0

/-- The sum of `cellOrZero` over the eight neighbour positions, in source order. -/
def neighborSum (g : Grid) (x y : Int) : Int :=
  g.cellOrZero (x - 1) (y - 1) + g.cellOrZero x (y - 1) + g.cellOrZero (x + 1) (y - 1)
    + g.cellOrZero (x - 1) y + g.cellOrZero (x + 1) y
    + g.cellOrZero (x - 1) (y + 1) + g.cellOrZero x (y + 1) + g.cellOrZero (x + 1) (y + 1)

/-- The value the four conditional assignments of the rule loop leave in `newGrid[x][y]`,
for old cell value `c` and neighbour count `n`. -/
def lifeRule (c n : Int) : Int :=
  if n = 3 then (if c = 0 then 1 else c) else if n = 2 then c else 0

/-- Indicator of the pattern `l` at the position `(i, j)`. -/
def ind (l : List (Int × Int)) (i j : Int) : Int := if (i, j) ∈ l then 1 else 0

/-- The sum of the pattern indicator over the eight neighbour positions, in source order. -/
def indSum (l : List (Int × Int)) (x y : Int) : Int :=
  ind l (x - 1) (y - 1) + ind l x (y - 1) + ind l (x + 1) (y - 1)
    + ind l (x - 1) y + ind l (x + 1) y
    + ind l (x - 1) (y + 1) + ind l x (y + 1) + ind l (x + 1) (y + 1)

/-- The next state of position `(x, y)` when exactly the positions in `l` are alive. -/
def lifeAt (l : List (Int × Int)) (x y : Int) : Int := lifeRule (ind l x y) (indSum l x y)

/-- The pattern `l` translated by `(x, y)`. -/
def shift (x y : Int) (l : List (Int × Int)) : List (Int × Int) :=
  l.map fun p => (x + p.1, y + p.2)

/-! ## Further specification-side definitions -/

/-- Running `UpdateDrawFrame` once per input, in order: the frames of the main loop. -/
def runFrames : List Input → State → Option State
  | [], s => some s
  | inp :: rest, s => (UpdateDrawFrame s inp).bind (runFrames rest)

/-- The horizontal reflection `x -> 19 - x` of a grid. -/
def mirror (g : Grid) : Grid := fun a b => g (Fin.rev a) b

/-- A running (unpaused) state holding a horizontal blinker, with the clock at 0. -/
def clockStartState : State :=
  { initialState with grid := patternGrid [(1, 1), (2, 1), (3, 1)], paused := 0, updates := 0 }

/-- A left click with the mouse at pixel `(40, 40)`, over the cell `(1, 1)` at the initial
camera. -/
def insideClick : Input :=
  { idleInput with mousePosition := ⟨40, 40⟩, leftPressed := true }

/-- A press of the space key and a left click at pixel `(40, 40)` in the same frame. -/
def pauseAndClickInput : Input :=
  { idleInput with mousePosition := ⟨40, 40⟩, spacePressed := true, leftPressed := true }

/-- One notch of the wheel toward the user, the mouse at pixel `(100, 50)`. -/
def wheelInput : Input :=
  { idleInput with mousePosition := ⟨100, 50⟩, wheel := -1 }

/-! ## Reading, writing and the neighbour count -/

theorem Grid.read_fin (g : Grid) (a : Fin SQUARES_X) (b : Fin SQUARES_Y) :
    g.read (a.val : Int) (b.val : Int) = some (g a b) := by
  have ha := a.isLt
  have hb := b.isLt
  unfold Grid.read
  rw [dif_pos (by omega)]
  simp

theorem Grid.write_fin (g : Grid) (a : Fin SQUARES_X) (b : Fin SQUARES_Y) (v : Int) :
    g.write (a.val : Int) (b.val : Int) v = some (g.set a b v) := by
  have ha := a.isLt
  have hb := b.isLt
  unfold Grid.write
  rw [dif_pos (by omega)]
  simp

theorem Grid.read_of_not_inRange (g : Grid) (i j : Int)
    (h : ¬ (0 ≤ i ∧ i < (SQUARES_X : Int) ∧ 0 ≤ j ∧ j < (SQUARES_Y : Int))) :
    g.read i j = none := by
  unfold Grid.read
  rw [dif_neg h]

theorem Grid.read_isSome_iff (g : Grid) (i j : Int) :
    (g.read i j).isSome ↔ (0 ≤ i ∧ i < (SQUARES_X : Int) ∧ 0 ≤ j ∧ j < (SQUARES_Y : Int)) := by
  unfold Grid.read
  by_cases h : 0 ≤ i ∧ i < (SQUARES_X : Int) ∧ 0 ≤ j ∧ j < (SQUARES_Y : Int)
  · rw [dif_pos h]
    simp only [Option.isSome_some, true_iff]
    exact h
  · rw [dif_neg h]
    simp only [Option.isSome_none, Bool.false_eq_true, false_iff]
    exact h

theorem addCellIf_eq (g : Grid) (c : Prop) [Decidable c] (i j count : Int)
    (h : c ↔ (0 ≤ i ∧ i < (SQUARES_X : Int) ∧ 0 ≤ j ∧ j < (SQUARES_Y : Int))) :
    addCellIf g c i j count = some (count + g.cellOrZero i j) := by
  unfold addCellIf Grid.cellOrZero
  by_cases hc : c
  · rw [if_pos hc]
    have := (Grid.read_isSome_iff g i j).2 (h.1 hc)
    obtain ⟨v, hv⟩ := Option.isSome_iff_exists.1 this
    simp [hv]
  · rw [if_neg hc, Grid.read_of_not_inRange g i j (fun h' => hc (h.2 h'))]
    simp

theorem getLiveNeighborCount_eq (g : Grid) (x y : Int)
    (hx : 0 ≤ x ∧ x < (SQUARES_X : Int)) (hy : 0 ≤ y ∧ y < (SQUARES_Y : Int)) :
    getLiveNeighborCount g x y = some (neighborSum g x y) := by
  unfold getLiveNeighborCount neighborSum
  dsimp only
  rw [addCellIf_eq g _ _ _ _ (by omega)]
  simp only [Option.bind_eq_bind, Option.some_bind]
  rw [addCellIf_eq g _ _ _ _ (by omega)]
  simp only [Option.bind_eq_bind, Option.some_bind]
  rw [addCellIf_eq g _ _ _ _ (by omega)]
  simp only [Option.bind_eq_bind, Option.some_bind]
  rw [addCellIf_eq g _ _ _ _ (by omega)]
  simp only [Option.bind_eq_bind, Option.some_bind]
  rw [addCellIf_eq g _ _ _ _ (by omega)]
  simp only [Option.bind_eq_bind, Option.some_bind]
  rw [addCellIf_eq g _ _ _ _ (by omega)]
  simp only [Option.bind_eq_bind, Option.some_bind]
  rw [addCellIf_eq g _ _ _ _ (by omega)]
  simp only [Option.bind_eq_bind, Option.some_bind]
  rw [addCellIf_eq g _ _ _ _ (by omega)]
  simp

/-! ## Loops and the generation step -/

theorem forLoop_succ {σ : Type} (n : Nat) (body : Int → σ → Option σ) (s : σ) :
    forLoop (n + 1) body s = (forLoop n body s).bind (body (n : Int)) := by
  unfold forLoop
  rw [List.range_succ, List.foldlM_append]
  cases h : List.foldlM (fun s (i : Nat) => body (i : Int) s) s (List.range n) <;> simp

/-- Loop rule: an invariant established at 0 and preserved by every iteration holds
after the loop, and the loop returns. -/
theorem forLoop_invariant {σ : Type} (P : Nat → σ → Prop) (n : Nat)
    (body : Int → σ → Option σ) (s : σ) (h0 : P 0 s)
    (hstep : ∀ i, i < n → ∀ t, P i t → ∃ t', body (i : Int) t = some t' ∧ P (i + 1) t') :
    ∃ t, forLoop n body s = some t ∧ P n t := by
  induction n with
  | zero => exact ⟨s, rfl, h0⟩
  | succ k ih =>
    obtain ⟨t, ht, hP⟩ := ih (fun i hi t hPt => hstep i (Nat.lt_succ_of_lt hi) t hPt)
    obtain ⟨t', ht', hP'⟩ := hstep k (Nat.lt_succ_self k) t hP
    refine ⟨t', ?_, hP'⟩
    rw [forLoop_succ, ht]
    exact ht'

theorem Grid.set_same (g : Grid) (a : Fin SQUARES_X) (b : Fin SQUARES_Y) (v : Int) :
    g.set a b v a b = v := by
  simp [Grid.set]

theorem Grid.set_set (g : Grid) (a : Fin SQUARES_X) (b : Fin SQUARES_Y) (v w : Int) :
    (g.set a b v).set a b w = g.set a b w := by
  funext a' b'
  simp only [Grid.set]
  split <;> rfl

theorem ruleBody_eq (s : StepVars) (a : Fin SQUARES_X) (b : Fin SQUARES_Y) :
    ruleBody (a.val : Int) (b.val : Int) s =
      some { s with newGrid := (s.newGrid.set a b
              (lifeRule (s.grid a b) (neighborSum s.grid (a.val : Int) (b.val : Int)))) } := by
  have ha := a.isLt
  have hb := b.isLt
  unfold ruleBody
  rw [getLiveNeighborCount_eq s.grid _ _ (by omega) (by omega)]
  simp only [Option.bind_eq_bind, Option.some_bind, Grid.read_fin, Grid.write_fin, Option.pure_def]
  generalize neighborSum s.grid (a.val : Int) (b.val : Int) = n
  unfold lifeRule
  by_cases h3 : n = 3
  · subst h3
    by_cases hc : s.grid a b = 0
    · simp [hc, Grid.set_set]
    · simp [hc, Grid.set_set]
  · by_cases h2 : n = 2
    · subst h2
      simp
    · by_cases hlt : n < 2
      · have : ¬ n > 3 := by omega
        simp [h3, h2, hlt, this]
      · have : n > 3 := by omega
        simp [h3, h2, hlt, this]

/-- A pair of nested `for` loops over the grid whose body assigns `val a b` to cell
`(a, b)` of the component `cells` and preserves `Q` returns, and leaves `val` in every
cell. -/
theorem gridLoop_assign {σ : Type} (Q : σ → Prop) (cells : σ → Grid)
    (val : Fin SQUARES_X → Fin SQUARES_Y → Int) (body : Int → Int → σ → Option σ)
    (hbody : ∀ (a : Fin SQUARES_X) (b : Fin SQUARES_Y) (t : σ), Q t →
      ∃ t', body (a.val : Int) (b.val : Int) t = some t' ∧ Q t' ∧
        cells t' = (cells t).set a b (val a b))
    (s : σ) (hs : Q s) :
    ∃ t, forLoop SQUARES_X (fun x s => forLoop SQUARES_Y (fun y s => body x y s) s) s = some t
      ∧ Q t ∧ ∀ a b, cells t a b = val a b := by
  obtain ⟨t, ht, hQ, hcells⟩ := forLoop_invariant
    (fun i t => Q t ∧ ∀ (a : Fin SQUARES_X) (b : Fin SQUARES_Y), a.val < i →
      cells t a b = val a b)
    SQUARES_X (fun x s => forLoop SQUARES_Y (fun y s => body x y s) s) s
    ⟨hs, fun a b h => absurd h (Nat.not_lt_zero _)⟩
    (by
      intro i hi t ⟨hQt, hrows⟩
      obtain ⟨t', ht', hQ', hrows', hrow⟩ := forLoop_invariant
        (fun j t => Q t ∧ (∀ (a : Fin SQUARES_X) (b : Fin SQUARES_Y), a.val < i →
            cells t a b = val a b) ∧
          ∀ (b : Fin SQUARES_Y), b.val < j → cells t ⟨i, hi⟩ b = val ⟨i, hi⟩ b)
        SQUARES_Y (fun y s => body (i : Int) y s) t
        ⟨hQt, hrows, fun b h => absurd h (Nat.not_lt_zero _)⟩
        (by
          intro j hj u ⟨hQu, hrowsu, hrowu⟩
          obtain ⟨u', hu', hQu', hcu'⟩ := hbody ⟨i, hi⟩ ⟨j, hj⟩ u hQu
          refine ⟨u', hu', hQu', ?_, ?_⟩
          · intro a b hab
            rw [hcu']
            unfold Grid.set
            rw [if_neg]
            · exact hrowsu a b hab
            · rintro ⟨h1, -⟩
              rw [h1] at hab
              exact Nat.lt_irrefl _ hab
          · intro b hb
            rw [hcu']
            unfold Grid.set
            by_cases hbj : b = ⟨j, hj⟩
            · rw [if_pos ⟨rfl, hbj⟩, hbj]
            · rw [if_neg (fun h => hbj h.2)]
              apply hrowu b
              have : b.val ≠ j := fun h => hbj (Fin.ext h)
              omega)
      refine ⟨t', ht', hQ', ?_⟩
      intro a b hab
      by_cases hai : a.val < i
      · exact hrows' a b hai
      · have hia : a = ⟨i, hi⟩ := Fin.ext (by simp only; omega)
        rw [hia]
        exact hrow b b.isLt)
  exact ⟨t, ht, hQ, fun a b => hcells a b a.isLt⟩

/-- Closed form of the generation step: it returns for every grid, and cell `(a, b)` of
the result is `lifeRule` of the old cell and the neighbour sum of the old grid. -/
theorem generationStep_eq (g : Grid) :
    generationStep g =
      some (fun a b => lifeRule (g a b) (neighborSum g (a.val : Int) (b.val : Int))) := by
  unfold generationStep
  obtain ⟨t, ht, hgrid, hnew⟩ := gridLoop_assign (fun t : StepVars => t.grid = g)
    (fun t => t.newGrid)
    (fun a b => lifeRule (g a b) (neighborSum g (a.val : Int) (b.val : Int)))
    ruleBody
    (by
      intro a b t ht
      refine ⟨_, ruleBody_eq t a b, ht, ?_⟩
      simp only [ht])
    { grid := g, newGrid := zeroGrid } rfl
  obtain ⟨u, hu, hunew, hugrid⟩ := gridLoop_assign (fun u : StepVars => u.newGrid = t.newGrid)
    (fun u => u.grid) (fun a b => t.newGrid a b) copyBody
    (by
      intro a b u hu
      refine ⟨{ u with grid := u.grid.set a b (t.newGrid a b) }, ?_, hu, rfl⟩
      unfold copyBody
      rw [Grid.read_fin, hu]
      simp [Grid.write_fin])
    t rfl
  dsimp only
  simp only [Option.bind_eq_bind, Option.pure_def]
  rw [ht, Option.some_bind, hu, Option.some_bind]
  congr 1
  funext a b
  rw [hugrid, hnew]

/-! ## The neighbour count against its specification -/

theorem Grid.cellOrZero_fin (g : Grid) (a : Fin SQUARES_X) (b : Fin SQUARES_Y) :
    g.cellOrZero (a.val : Int) (b.val : Int) = g a b := by
  unfold Grid.cellOrZero
  rw [Grid.read_fin]
  rfl

theorem Grid.cellOrZero_off (g : Grid) (i j : Int)
    (h : ¬ (0 ≤ i ∧ i < (SQUARES_X : Int) ∧ 0 ≤ j ∧ j < (SQUARES_Y : Int))) :
    g.cellOrZero i j = 0 := by
  unfold Grid.cellOrZero
  rw [Grid.read_of_not_inRange g i j h]
  rfl

/-- Every position is either off the grid or a cell `(a, b)` of the grid. -/
theorem onGrid_cases (i j : Int) :
    ¬ (0 ≤ i ∧ i < (SQUARES_X : Int) ∧ 0 ≤ j ∧ j < (SQUARES_Y : Int)) ∨
    ∃ (a : Fin SQUARES_X) (b : Fin SQUARES_Y), i = (a.val : Int) ∧ j = (b.val : Int) := by
  by_cases h : 0 ≤ i ∧ i < (SQUARES_X : Int) ∧ 0 ≤ j ∧ j < (SQUARES_Y : Int)
  · right
    refine ⟨⟨i.toNat, by omega⟩, ⟨j.toNat, by omega⟩, ?_, ?_⟩
    · simp only; omega
    · simp only; omega
  · left; exact h

theorem Grid.cellOrZero_binary (g : Grid) (hg : g.binary) (i j : Int) :
    g.cellOrZero i j = 0 ∨ g.cellOrZero i j = 1 := by
  rcases onGrid_cases i j with h | ⟨a, b, rfl, rfl⟩
  · left; exact Grid.cellOrZero_off g i j h
  · rw [Grid.cellOrZero_fin]; exact hg a b

/-- On a binary grid `cellOrZero` is the indicator of "on the grid and alive". -/
theorem Grid.cellOrZero_indicator (g : Grid) (hg : g.binary) (p : Int × Int) :
    (if onGrid p = true ∧ (g.read p.1 p.2 == some 1) = true then (1 : Int) else 0)
      = g.cellOrZero p.1 p.2 := by
  obtain ⟨i, j⟩ := p
  rcases onGrid_cases i j with h | ⟨a, b, rfl, rfl⟩
  · rw [Grid.cellOrZero_off g i j h, if_neg]
    rintro ⟨h1, -⟩
    apply h
    simpa [onGrid] using h1
  · have hon : onGrid ((a.val : Int), (b.val : Int)) = true := by
      have ha := a.isLt
      have hb := b.isLt
      simp only [onGrid, decide_eq_true_eq]
      omega
    simp only [Grid.cellOrZero_fin, Grid.read_fin, hon, true_and]
    rcases hg a b with h0 | h1
    · simp [h0]
    · simp [h1]

theorem countP_filter_eq_sum {α : Type} (p q : α → Bool) (l : List α) :
    (((l.filter p).countP q : Nat) : Int)
      = (l.map fun a => if p a = true ∧ q a = true then (1 : Int) else 0).sum := by
  induction l with
  | nil => simp
  | cons a l ih =>
    by_cases hp : p a = true
    · by_cases hq : q a = true
      · simp [List.filter_cons, hp, hq, List.countP_cons, ← ih]
        ring
      · simp [List.filter_cons, hp, hq, List.countP_cons, ← ih]
    · simp [List.filter_cons, hp, ← ih]

/-- On a binary grid the sum of the neighbour cells is the specified count of live
neighbours. -/
theorem neighborSum_eq_spec (g : Grid) (hg : g.binary) (x y : Int) :
    neighborSum g x y = (liveNeighborSpec g x y : Int) := by
  unfold liveNeighborSpec
  rw [countP_filter_eq_sum]
  have hfun : (fun p : Int × Int =>
      if onGrid p = true ∧ (g.read p.1 p.2 == some 1) = true then (1 : Int) else 0)
      = fun p => g.cellOrZero p.1 p.2 := funext (Grid.cellOrZero_indicator g hg)
  rw [hfun]
  have e1 : x + -1 = x - 1 := by ring
  have e2 : y + -1 = y - 1 := by ring
  simp only [mooreOffsets, List.map_cons, List.map_nil, List.sum_cons, List.sum_nil, e1, e2,
    add_zero]
  unfold neighborSum
  ring

theorem Grid.cellOrZero_set_ne (g : Grid) (a : Fin SQUARES_X) (b : Fin SQUARES_Y) (v : Int)
    (i j : Int) (h : i ≠ (a.val : Int) ∨ j ≠ (b.val : Int)) :
    (g.set a b v).cellOrZero i j = g.cellOrZero i j := by
  rcases onGrid_cases i j with hoff | ⟨a', b', rfl, rfl⟩
  · rw [Grid.cellOrZero_off _ i j hoff, Grid.cellOrZero_off _ i j hoff]
  · rw [Grid.cellOrZero_fin, Grid.cellOrZero_fin]
    unfold Grid.set
    rw [if_neg]
    rintro ⟨rfl, rfl⟩
    rcases h with h | h <;> exact h rfl

theorem neighborSum_set_self (g : Grid) (a : Fin SQUARES_X) (b : Fin SQUARES_Y) (v : Int) :
    neighborSum (g.set a b v) (a.val : Int) (b.val : Int)
      = neighborSum g (a.val : Int) (b.val : Int) := by
  unfold neighborSum
  rw [Grid.cellOrZero_set_ne g a b v _ _ (by omega), Grid.cellOrZero_set_ne g a b v _ _ (by omega),
    Grid.cellOrZero_set_ne g a b v _ _ (by omega), Grid.cellOrZero_set_ne g a b v _ _ (by omega),
    Grid.cellOrZero_set_ne g a b v _ _ (by omega), Grid.cellOrZero_set_ne g a b v _ _ (by omega),
    Grid.cellOrZero_set_ne g a b v _ _ (by omega), Grid.cellOrZero_set_ne g a b v _ _ (by omega)]

theorem neighborSum_bounds (g : Grid) (hg : g.binary) (x y : Int) :
    0 ≤ neighborSum g x y ∧ neighborSum g x y ≤ 8 := by
  unfold neighborSum
  have h1 := Grid.cellOrZero_binary g hg (x - 1) (y - 1)
  have h2 := Grid.cellOrZero_binary g hg x (y - 1)
  have h3 := Grid.cellOrZero_binary g hg (x + 1) (y - 1)
  have h4 := Grid.cellOrZero_binary g hg (x - 1) y
  have h5 := Grid.cellOrZero_binary g hg (x + 1) y
  have h6 := Grid.cellOrZero_binary g hg (x - 1) (y + 1)
  have h7 := Grid.cellOrZero_binary g hg x (y + 1)
  have h8 := Grid.cellOrZero_binary g hg (x + 1) (y + 1)
  omega

theorem lifeRule_binary (c n : Int) (hc : c = 0 ∨ c = 1) :
    lifeRule c n = 0 ∨ lifeRule c n = 1 := by
  unfold lifeRule
  rcases hc with rfl | rfl <;> split_ifs <;> simp_all

theorem lifeRule_alive_iff (c n : Int) (hc : c = 0 ∨ c = 1) :
    lifeRule c n = 1 ↔ (c = 1 ∧ (n = 2 ∨ n = 3)) ∨ (c = 0 ∧ n = 3) := by
  unfold lifeRule
  rcases hc with rfl | rfl <;> split_ifs <;> simp_all

theorem patternGrid_binary (l : List (Int × Int)) : (patternGrid l).binary := by
  intro a b
  unfold patternGrid
  split
  · right; rfl
  · left; rfl


/-! ## The phases of a frame -/

theorem cellIndex_range (f : ℚ) (h0 : 0 < f) (h1 : f < ((SQUARE_SIZE * SQUARES_X : Int) : ℚ)) :
    0 ≤ (truncToInt f).tdiv SQUARE_SIZE ∧ (truncToInt f).tdiv SQUARE_SIZE < (SQUARES_X : Int) := by
  unfold truncToInt
  rw [if_pos (le_of_lt h0)]
  have hf0 : 0 ≤ Int.floor f := Int.floor_nonneg.2 (le_of_lt h0)
  have hf1 : Int.floor f < SQUARE_SIZE * SQUARES_X := Int.floor_lt.2 h1
  rw [Int.tdiv_eq_ediv hf0 (by decide)]
  simp only [SQUARE_SIZE, SQUARES_X, Nat.cast_ofNat] at hf1 ⊢
  omega

/-- The click handler inside its guards: the cell under the mouse is replaced by its
logical negation, and no subscript leaves the grid. -/
theorem handleClick_inside (paused : Int) (w : Vector2) (inp : Input) (grid : Grid)
    (h1 : inp.leftPressed = true ∧ paused ≠ 0)
    (h2 : w.x > 0 ∧ w.x < ((SQUARE_SIZE * SQUARES_X : Int) : ℚ) ∧
      w.y > 0 ∧ w.y < ((SQUARE_SIZE * SQUARES_Y : Int) : ℚ)) :
    ∃ (a : Fin SQUARES_X) (b : Fin SQUARES_Y),
      (a.val : Int) = (truncToInt w.x).tdiv SQUARE_SIZE ∧
      (b.val : Int) = (truncToInt w.y).tdiv SQUARE_SIZE ∧
      handleClick paused w inp grid = some (grid.set a b (lnot (grid a b))) := by
  have hx := cellIndex_range w.x h2.1 h2.2.1
  have hy := cellIndex_range w.y h2.2.2.1 h2.2.2.2
  have hx20 : (truncToInt w.x).tdiv SQUARE_SIZE < 20 := hx.2
  have hy20 : (truncToInt w.y).tdiv SQUARE_SIZE < 20 := hy.2
  have hxn : ((truncToInt w.x).tdiv SQUARE_SIZE).toNat < 20 := by omega
  have hyn : ((truncToInt w.y).tdiv SQUARE_SIZE).toNat < 20 := by omega
  refine ⟨⟨((truncToInt w.x).tdiv SQUARE_SIZE).toNat, hxn⟩,
    ⟨((truncToInt w.y).tdiv SQUARE_SIZE).toNat, hyn⟩, ?_, ?_, ?_⟩
  · simp only; omega
  · simp only; omega
  · unfold handleClick
    rw [if_pos h1, if_pos h2]
    dsimp only
    unfold Grid.read Grid.write
    rw [dif_pos ⟨hx.1, hx.2, hy.1, hy.2⟩]
    simp only [Option.some_bind]
    rw [dif_pos ⟨hx.1, hx.2, hy.1, hy.2⟩]

theorem handleClick_outside (paused : Int) (w : Vector2) (inp : Input) (grid : Grid)
    (h2 : ¬ (w.x > 0 ∧ w.x < ((SQUARE_SIZE * SQUARES_X : Int) : ℚ) ∧
      w.y > 0 ∧ w.y < ((SQUARE_SIZE * SQUARES_Y : Int) : ℚ))) :
    handleClick paused w inp grid = some grid := by
  unfold handleClick
  rw [if_neg h2]
  split <;> rfl

theorem handleClick_isSome (paused : Int) (w : Vector2) (inp : Input) (grid : Grid) :
    ∃ g, handleClick paused w inp grid = some g := by
  by_cases h1 : inp.leftPressed = true ∧ paused ≠ 0
  · by_cases h2 : w.x > 0 ∧ w.x < ((SQUARE_SIZE * SQUARES_X : Int) : ℚ) ∧
        w.y > 0 ∧ w.y < ((SQUARE_SIZE * SQUARES_Y : Int) : ℚ)
    · obtain ⟨a, b, -, -, h⟩ := handleClick_inside paused w inp grid h1 h2
      exact ⟨_, h⟩
    · exact ⟨_, handleClick_outside paused w inp grid h2⟩
  · refine ⟨grid, ?_⟩
    unfold handleClick
    rw [if_neg h1]
    rfl

theorem handleClick_skip (paused : Int) (w : Vector2) (inp : Input) (grid : Grid)
    (h : ¬ (inp.leftPressed = true ∧ paused ≠ 0)) :
    handleClick paused w inp grid = some grid := by
  unfold handleClick
  rw [if_neg h]
  rfl

theorem handleClear_skip (paused : Int) (inp : Input) (grid : Grid)
    (h : ¬ (inp.cPressed = true ∧ paused ≠ 0)) :
    handleClear paused inp grid = some grid := by
  unfold handleClear
  rw [if_neg h]
  rfl

theorem handleClear_clear (paused : Int) (inp : Input) (grid : Grid)
    (h : inp.cPressed = true ∧ paused ≠ 0) :
    handleClear paused inp grid = some zeroGrid := by
  unfold handleClear
  rw [if_pos h]
  obtain ⟨t, ht, -, hcells⟩ := gridLoop_assign (fun _ : Grid => True) (fun g => g)
    (fun _ _ => 0) (fun x y g => g.write x y 0)
    (fun a b t _ => ⟨_, Grid.write_fin t a b 0, trivial, rfl⟩) grid trivial
  rw [ht]
  congr 1
  funext a b
  exact hcells a b

theorem simulationTick_paused (paused : Int) (grid : Grid) (updates : Int) (h : paused ≠ 0) :
    simulationTick paused grid updates =
      some (grid, if updates ≥ FPS.tdiv UPDATES_PER_SECOND then 0 else updates + 1) := by
  unfold simulationTick lnot
  by_cases hu : updates ≥ FPS.tdiv UPDATES_PER_SECOND
  · simp [hu, h]
  · simp [hu]

theorem simulationTick_early (paused : Int) (grid : Grid) (updates : Int)
    (h : ¬ (updates ≥ FPS.tdiv UPDATES_PER_SECOND)) :
    simulationTick paused grid updates = some (grid, updates + 1) := by
  unfold simulationTick
  simp [h]

/-- The frame function in terms of its phases, once each phase has returned. -/
theorem UpdateDrawFrame_eq (s : State) (inp : Input) (g1 g2 g3 : Grid) (u : Int)
    (h1 : handleClick (togglePause s.paused inp)
      (GetScreenToWorld2D inp.mousePosition s.camera) inp s.grid = some g1)
    (h2 : handleClear (togglePause s.paused inp) inp g1 = some g2)
    (h3 : simulationTick (togglePause s.paused inp) g2 s.updates = some (g3, u)) :
    UpdateDrawFrame s inp =
      some { camera := updateCamera s.camera (GetScreenToWorld2D inp.mousePosition s.camera) inp
             grid := g3
             paused := togglePause s.paused inp
             updates := u } := by
  unfold UpdateDrawFrame
  simp only [Option.bind_eq_bind, Option.pure_def]
  rw [h1, Option.some_bind, h2, Option.some_bind, h3, Option.some_bind]


/-! ## Patterns and their translates -/

theorem onGrid_iff (i j : Int) :
    onGrid (i, j) = true ↔ (0 ≤ i ∧ i < (SQUARES_X : Int) ∧ 0 ≤ j ∧ j < (SQUARES_Y : Int)) := by
  simp only [onGrid, decide_eq_true_eq]

theorem cellOrZero_pattern (l : List (Int × Int)) (hl : ∀ p ∈ l, onGrid p = true) (i j : Int) :
    (patternGrid l).cellOrZero i j = ind l i j := by
  rcases onGrid_cases i j with hoff | ⟨a, b, rfl, rfl⟩
  · rw [Grid.cellOrZero_off _ i j hoff]
    unfold ind
    rw [if_neg]
    intro hmem
    exact hoff ((onGrid_iff i j).1 (hl _ hmem))
  · rw [Grid.cellOrZero_fin]
    rfl

theorem neighborSum_pattern (l : List (Int × Int)) (hl : ∀ p ∈ l, onGrid p = true) (x y : Int) :
    neighborSum (patternGrid l) x y = indSum l x y := by
  unfold neighborSum indSum
  simp only [cellOrZero_pattern l hl]

theorem generationStep_pattern (l : List (Int × Int)) (hl : ∀ p ∈ l, onGrid p = true) :
    generationStep (patternGrid l) = some (fun a b => lifeAt l (a.val : Int) (b.val : Int)) := by
  rw [generationStep_eq]
  congr 1
  funext a b
  rw [neighborSum_pattern l hl]
  rfl

theorem ind_shift (l : List (Int × Int)) (x y i j : Int) :
    ind (shift x y l) i j = ind l (i - x) (j - y) := by
  unfold ind shift
  have h : (i, j) ∈ l.map (fun p : Int × Int => (x + p.1, y + p.2)) ↔ (i - x, j - y) ∈ l := by
    rw [List.mem_map]
    constructor
    · rintro ⟨⟨p1, p2⟩, hp, heq⟩
      simp only [Prod.mk.injEq] at heq
      have e1 : i - x = p1 := by omega
      have e2 : j - y = p2 := by omega
      rw [e1, e2]
      exact hp
    · intro hp
      refine ⟨(i - x, j - y), hp, ?_⟩
      simp only [Prod.mk.injEq]
      omega
  simp only [h]

theorem lifeAt_shift (l : List (Int × Int)) (x y i j : Int) :
    lifeAt (shift x y l) i j = lifeAt l (i - x) (j - y) := by
  unfold lifeAt indSum
  simp only [ind_shift]
  have e1 : i - 1 - x = i - x - 1 := by ring
  have e2 : i + 1 - x = i - x + 1 := by ring
  have e3 : j - 1 - y = j - y - 1 := by ring
  have e4 : j + 1 - y = j - y + 1 := by ring
  rw [e1, e2, e3, e4]

/-- A position with no cell of the pattern in its 3x3 window is dead in the next
generation. -/
theorem lifeAt_far (l : List (Int × Int)) (u v : Int)
    (h : ∀ p ∈ l, ¬ (u - 1 ≤ p.1 ∧ p.1 ≤ u + 1 ∧ v - 1 ≤ p.2 ∧ p.2 ≤ v + 1)) :
    lifeAt l u v = 0 := by
  have key : ∀ i j : Int, (u - 1 ≤ i ∧ i ≤ u + 1 ∧ v - 1 ≤ j ∧ j ≤ v + 1) → ind l i j = 0 := by
    intro i j hij
    unfold ind
    rw [if_neg]
    intro hmem
    exact h _ hmem hij
  unfold lifeAt indSum
  rw [key _ _ (by omega), key _ _ (by omega), key _ _ (by omega), key _ _ (by omega),
    key _ _ (by omega), key _ _ (by omega), key _ _ (by omega), key _ _ (by omega),
    key _ _ (by omega)]
  decide

/-- One generation step on a translated pattern, from the next state of every position
of the untranslated pattern. -/
theorem pattern_step (l l' : List (Int × Int)) (x y : Int)
    (hl : ∀ p ∈ shift x y l, onGrid p = true)
    (h : ∀ u v : Int, lifeAt l u v = ind l' u v) :
    generationStep (patternGrid (shift x y l)) = some (patternGrid (shift x y l')) := by
  rw [generationStep_pattern _ hl]
  congr 1
  funext a b
  rw [lifeAt_shift, h]
  unfold patternGrid
  rw [← ind_shift]
  rfl

theorem patternGrid_nil : patternGrid [] = zeroGrid := by
  funext a b
  simp [patternGrid, zeroGrid]

theorem horizontal_blinker_next (u v : Int) :
    lifeAt [(0, 0), (1, 0), (2, 0)] u v = ind [(1, -1), (1, 0), (1, 1)] u v := by
  by_cases hw : (-1 ≤ u ∧ u ≤ 3) ∧ (-1 ≤ v ∧ v ≤ 1)
  · obtain ⟨⟨hu0, hu1⟩, hv0, hv1⟩ := hw
    interval_cases u <;> interval_cases v <;> decide
  · rw [lifeAt_far]
    · unfold ind
      rw [if_neg]
      simp only [List.mem_cons, Prod.mk.injEq, List.mem_singleton, List.not_mem_nil, or_false]
      omega
    · simp only [List.mem_cons, List.mem_singleton, List.not_mem_nil, or_false, forall_eq_or_imp,
        forall_eq]
      omega

theorem vertical_blinker_next (u v : Int) :
    lifeAt [(1, -1), (1, 0), (1, 1)] u v = ind [(0, 0), (1, 0), (2, 0)] u v := by
  by_cases hw : (-1 ≤ u ∧ u ≤ 3) ∧ (-2 ≤ v ∧ v ≤ 2)
  · obtain ⟨⟨hu0, hu1⟩, hv0, hv1⟩ := hw
    interval_cases u <;> interval_cases v <;> decide
  · rw [lifeAt_far]
    · unfold ind
      rw [if_neg]
      simp only [List.mem_cons, Prod.mk.injEq, List.mem_singleton, List.not_mem_nil, or_false]
      omega
    · simp only [List.mem_cons, List.mem_singleton, List.not_mem_nil, or_false, forall_eq_or_imp,
        forall_eq]
      omega

theorem block_next (u v : Int) :
    lifeAt [(0, 0), (1, 0), (0, 1), (1, 1)] u v = ind [(0, 0), (1, 0), (0, 1), (1, 1)] u v := by
  by_cases hw : (-1 ≤ u ∧ u ≤ 2) ∧ (-1 ≤ v ∧ v ≤ 2)
  · obtain ⟨⟨hu0, hu1⟩, hv0, hv1⟩ := hw
    interval_cases u <;> interval_cases v <;> decide
  · rw [lifeAt_far]
    · unfold ind
      rw [if_neg]
      simp only [List.mem_cons, Prod.mk.injEq, List.mem_singleton, List.not_mem_nil, or_false]
      omega
    · simp only [List.mem_cons, List.mem_singleton, List.not_mem_nil, or_false, forall_eq_or_imp,
        forall_eq]
      omega

theorem single_cell_next (u v : Int) : lifeAt [(0, 0)] u v = ind [] u v := by
  by_cases hw : (-1 ≤ u ∧ u ≤ 1) ∧ (-1 ≤ v ∧ v ≤ 1)
  · obtain ⟨⟨hu0, hu1⟩, hv0, hv1⟩ := hw
    interval_cases u <;> interval_cases v <;> decide
  · rw [lifeAt_far]
    · rfl
    · simp only [List.mem_cons, List.mem_singleton, List.not_mem_nil, or_false, forall_eq_or_imp,
        forall_eq]
      omega

theorem domino_next (u v : Int) : lifeAt [(0, 0), (0, 1)] u v = ind [] u v := by
  by_cases hw : (-1 ≤ u ∧ u ≤ 1) ∧ (-1 ≤ v ∧ v ≤ 2)
  · obtain ⟨⟨hu0, hu1⟩, hv0, hv1⟩ := hw
    interval_cases u <;> interval_cases v <;> decide
  · rw [lifeAt_far]
    · rfl
    · simp only [List.mem_cons, List.mem_singleton, List.not_mem_nil, or_false, forall_eq_or_imp,
        forall_eq]
      omega

theorem iterateStep_fixed (g : Grid) (h : generationStep g = some g) (n : Nat) :
    iterateStep n g = some g := by
  induction n with
  | zero => rfl
  | succ k ih =>
    unfold iterateStep
    rw [h, Option.some_bind, ih]

theorem iterateStep_two (g g1 g2 : Grid) (h1 : generationStep g = some g1)
    (h2 : generationStep g1 = some g2) : iterateStep 2 g = some g2 := by
  unfold iterateStep
  rw [h1, Option.some_bind]
  unfold iterateStep
  rw [h2, Option.some_bind]
  rfl

/-! ## The all-dead grid and the reflection -/

theorem generationStep_isSome (g : Grid) : ∃ g', generationStep g = some g' :=
  ⟨_, generationStep_eq g⟩

theorem empty_next (u v : Int) : lifeAt [] u v = ind [] u v := by
  rw [lifeAt_far]
  · rfl
  · intro p hp
    exact absurd hp (List.not_mem_nil p)

theorem val_rev_cast (a : Fin SQUARES_X) : ((Fin.rev a).val : Int) = 19 - (a.val : Int) := by
  have ha : a.val < 20 := a.isLt
  have h : (Fin.rev a).val = 20 - (a.val + 1) := Fin.val_rev a
  omega

theorem Grid.cellOrZero_mirror (g : Grid) (i j : Int) :
    (mirror g).cellOrZero i j = g.cellOrZero (19 - i) j := by
  rcases onGrid_cases i j with hoff | ⟨a, b, rfl, rfl⟩
  · rw [Grid.cellOrZero_off _ i j hoff, Grid.cellOrZero_off]
    simp only [SQUARES_X, SQUARES_Y, Nat.cast_ofNat] at hoff ⊢
    omega
  · rw [← val_rev_cast, Grid.cellOrZero_fin, Grid.cellOrZero_fin]
    rfl

theorem neighborSum_mirror (g : Grid) (x y : Int) :
    neighborSum (mirror g) x y = neighborSum g (19 - x) y := by
  unfold neighborSum
  simp only [Grid.cellOrZero_mirror]
  have e1 : 19 - (x - 1) = 19 - x + 1 := by ring
  have e2 : 19 - (x + 1) = 19 - x - 1 := by ring
  rw [e1, e2]
  ring

/-! ## Invariants of a frame -/

theorem lnot_binary (v : Int) : lnot v = 0 ∨ lnot v = 1 := by
  unfold lnot
  split
  · right; rfl
  · left; rfl

theorem zeroGrid_binary : zeroGrid.binary := fun _ _ => Or.inl rfl

theorem Grid.set_binary (g : Grid) (hg : g.binary) (a : Fin SQUARES_X) (b : Fin SQUARES_Y)
    (v : Int) (hv : v = 0 ∨ v = 1) : (g.set a b v).binary := by
  intro a' b'
  unfold Grid.set
  split
  · exact hv
  · exact hg a' b'

theorem generationStep_binary (g : Grid) (hg : g.binary) :
    ∃ g', generationStep g = some g' ∧ g'.binary :=
  ⟨_, generationStep_eq g, fun a b => lifeRule_binary _ _ (hg a b)⟩

theorem handleClick_binary (paused : Int) (w : Vector2) (inp : Input) (grid : Grid)
    (hg : grid.binary) : ∃ g, handleClick paused w inp grid = some g ∧ g.binary := by
  by_cases h1 : inp.leftPressed = true ∧ paused ≠ 0
  · by_cases h2 : w.x > 0 ∧ w.x < ((SQUARE_SIZE * SQUARES_X : Int) : ℚ) ∧
        w.y > 0 ∧ w.y < ((SQUARE_SIZE * SQUARES_Y : Int) : ℚ)
    · obtain ⟨a, b, -, -, h⟩ := handleClick_inside paused w inp grid h1 h2
      exact ⟨_, h, Grid.set_binary grid hg a b _ (lnot_binary _)⟩
    · exact ⟨_, handleClick_outside paused w inp grid h2, hg⟩
  · exact ⟨_, handleClick_skip paused w inp grid h1, hg⟩

theorem handleClear_binary (paused : Int) (inp : Input) (grid : Grid) (hg : grid.binary) :
    ∃ g, handleClear paused inp grid = some g ∧ g.binary := by
  by_cases h : inp.cPressed = true ∧ paused ≠ 0
  · exact ⟨_, handleClear_clear paused inp grid h, zeroGrid_binary⟩
  · exact ⟨_, handleClear_skip paused inp grid h, hg⟩

/-- The tick at the clock threshold while unpaused: the generation step runs and the
clock is reset. -/
theorem simulationTick_fire (paused : Int) (grid : Grid) (updates : Int) (hp : paused = 0)
    (hu : updates ≥ FPS.tdiv UPDATES_PER_SECOND) :
    simulationTick paused grid updates = (generationStep grid).bind fun g => some (g, 0) := by
  unfold simulationTick lnot
  simp [hu, hp]

theorem simulationTick_binary (paused : Int) (grid : Grid) (updates : Int) (hg : grid.binary) :
    ∃ g u, simulationTick paused grid updates = some (g, u) ∧ g.binary := by
  by_cases hu : updates ≥ FPS.tdiv UPDATES_PER_SECOND
  · by_cases hp : paused = 0
    · obtain ⟨g', hg', hb⟩ := generationStep_binary grid hg
      refine ⟨g', 0, ?_, hb⟩
      rw [simulationTick_fire paused grid updates hp hu, hg']
      rfl
    · exact ⟨_, _, simulationTick_paused paused grid updates hp, hg⟩
  · exact ⟨_, _, simulationTick_early paused grid updates hu, hg⟩

/-- One frame returns and keeps every cell 0 or 1. -/
theorem UpdateDrawFrame_binary (s : State) (inp : Input) (hg : s.grid.binary) :
    ∃ s', UpdateDrawFrame s inp = some s' ∧ s'.grid.binary := by
  obtain ⟨g1, h1, hb1⟩ := handleClick_binary (togglePause s.paused inp)
    (GetScreenToWorld2D inp.mousePosition s.camera) inp s.grid hg
  obtain ⟨g2, h2, hb2⟩ := handleClear_binary (togglePause s.paused inp) inp g1 hb1
  obtain ⟨g3, u, h3, hb3⟩ := simulationTick_binary (togglePause s.paused inp) g2 s.updates hb2
  exact ⟨_, UpdateDrawFrame_eq s inp g1 g2 g3 u h1 h2 h3, hb3⟩

/-- Any sequence of frames returns and keeps every cell 0 or 1. -/
theorem runFrames_binary (l : List Input) (s : State) (hg : s.grid.binary) :
    ∃ s', runFrames l s = some s' ∧ s'.grid.binary := by
  induction l generalizing s with
  | nil => exact ⟨s, rfl, hg⟩
  | cons inp rest ih =>
    obtain ⟨s1, h1, hb1⟩ := UpdateDrawFrame_binary s inp hg
    obtain ⟨s2, h2, hb2⟩ := ih s1 hb1
    refine ⟨s2, ?_, hb2⟩
    unfold runFrames
    rw [h1, Option.some_bind, h2]

/-! ## The camera -/

theorem handleClear_isSome (paused : Int) (inp : Input) (grid : Grid) :
    ∃ g, handleClear paused inp grid = some g := by
  by_cases h : inp.cPressed = true ∧ paused ≠ 0
  · exact ⟨_, handleClear_clear paused inp grid h⟩
  · exact ⟨_, handleClear_skip paused inp grid h⟩

theorem simulationTick_isSome (paused : Int) (grid : Grid) (updates : Int) :
    ∃ g u, simulationTick paused grid updates = some (g, u) := by
  by_cases hu : updates ≥ FPS.tdiv UPDATES_PER_SECOND
  · by_cases hp : paused = 0
    · obtain ⟨g', hg'⟩ := generationStep_isSome grid
      refine ⟨g', 0, ?_⟩
      rw [simulationTick_fire paused grid updates hp hu, hg']
      rfl
    · exact ⟨_, _, simulationTick_paused paused grid updates hp⟩
  · exact ⟨_, _, simulationTick_early paused grid updates hu⟩

/-- Every frame returns; its camera and pause flag are those of the input phases. -/
theorem UpdateDrawFrame_isSome (s : State) (inp : Input) :
    ∃ s', UpdateDrawFrame s inp = some s' ∧
      s'.camera = updateCamera s.camera (GetScreenToWorld2D inp.mousePosition s.camera) inp ∧
      s'.paused = togglePause s.paused inp := by
  obtain ⟨g1, h1⟩ := handleClick_isSome (togglePause s.paused inp)
    (GetScreenToWorld2D inp.mousePosition s.camera) inp s.grid
  obtain ⟨g2, h2⟩ := handleClear_isSome (togglePause s.paused inp) inp g1
  obtain ⟨g3, u, h3⟩ := simulationTick_isSome (togglePause s.paused inp) g2 s.updates
  exact ⟨_, UpdateDrawFrame_eq s inp g1 g2 g3 u h1 h2 h3, rfl, rfl⟩

/-- The wheel branch of the camera update: offset and target are re-anchored and the zoom
is clamped. -/
theorem updateCamera_wheel (camera : Camera2D) (q : Vector2) (inp : Input)
    (hw : inp.wheel ≠ 0) :
    (updateCamera camera q inp).offset = inp.mousePosition ∧
    (updateCamera camera q inp).target = q ∧
    zoomIncrement ≤ (updateCamera camera q inp).zoom := by
  unfold updateCamera
  simp only [hw, ne_eq, not_false_eq_true, if_true]
  split_ifs <;> refine ⟨rfl, rfl, ?_⟩ <;> first | exact le_refl _ | exact le_of_not_lt ‹_›

theorem updateCamera_zoom_still (camera : Camera2D) (q : Vector2) (inp : Input)
    (hw : inp.wheel = 0) : (updateCamera camera q inp).zoom = camera.zoom := by
  unfold updateCamera
  simp only [hw, ne_eq, not_true_eq_false, if_false]
  split_ifs <;> rfl

theorem updateCamera_zoom_ge (camera : Camera2D) (q : Vector2) (inp : Input)
    (h : zoomIncrement ≤ camera.zoom) : zoomIncrement ≤ (updateCamera camera q inp).zoom := by
  by_cases hw : inp.wheel = 0
  · rw [updateCamera_zoom_still camera q inp hw]
    exact h
  · exact (updateCamera_wheel camera q inp hw).2.2

theorem runFrames_zoom_ge (l : List Input) (s : State) (h : zoomIncrement ≤ s.camera.zoom) :
    ∃ s', runFrames l s = some s' ∧ zoomIncrement ≤ s'.camera.zoom := by
  induction l generalizing s with
  | nil => exact ⟨s, rfl, h⟩
  | cons inp rest ih =>
    obtain ⟨s1, h1, hcam, -⟩ := UpdateDrawFrame_isSome s inp
    obtain ⟨s2, h2, hz⟩ := ih s1 (by rw [hcam]; exact updateCamera_zoom_ge _ _ _ h)
    refine ⟨s2, ?_, hz⟩
    unfold runFrames
    rw [h1, Option.some_bind, h2]

/-! ## The simulation clock -/

theorem iterateStep_succ (n : Nat) (g : Grid) :
    iterateStep (n + 1) g = (generationStep g).bind (iterateStep n) := rfl

theorem iterateStep_one (g : Grid) : iterateStep 1 g = generationStep g := by
  unfold iterateStep
  cases generationStep g <;> rfl

/-- One frame of a running simulation in which the space key is not pressed: the pause
flag stays 0; below the threshold the grid is kept and the clock advances, at the threshold
the generation step runs and the clock is reset. -/
theorem frame_running (s : State) (inp : Input) (hp : s.paused = 0)
    (hs : inp.spacePressed = false) :
    ∃ s', UpdateDrawFrame s inp = some s' ∧ s'.paused = 0 ∧
      (s.updates < 30 → s'.grid = s.grid ∧ s'.updates = s.updates + 1) ∧
      (30 ≤ s.updates → some s'.grid = generationStep s.grid ∧ s'.updates = 0) := by
  have hp' : togglePause s.paused inp = 0 := by
    unfold togglePause
    rw [hs, hp]
    rfl
  have h1 := handleClick_skip (togglePause s.paused inp)
    (GetScreenToWorld2D inp.mousePosition s.camera) inp s.grid (by simp [hp'])
  have h2 := handleClear_skip (togglePause s.paused inp) inp s.grid (by simp [hp'])
  have h30 : FPS.tdiv UPDATES_PER_SECOND = 30 := by decide
  by_cases hu : s.updates ≥ FPS.tdiv UPDATES_PER_SECOND
  · obtain ⟨g', hg'⟩ := generationStep_isSome s.grid
    have h3 : simulationTick (togglePause s.paused inp) s.grid s.updates = some (g', 0) := by
      rw [simulationTick_fire _ _ _ hp' hu, hg']
      rfl
    refine ⟨_, UpdateDrawFrame_eq s inp _ _ _ _ h1 h2 h3, hp', ?_, ?_⟩
    · intro hlt
      rw [h30] at hu
      omega
    · intro _
      exact ⟨hg'.symm, rfl⟩
  · refine ⟨_, UpdateDrawFrame_eq s inp _ _ _ _ h1 h2 (simulationTick_early _ _ _ hu), hp',
      ?_, ?_⟩
    · intro _
      exact ⟨rfl, rfl⟩
    · intro hge
      rw [h30] at hu
      omega

/-- The cadence of the clock: in a running simulation with the clock at `u ≤ 30`, `n`
frames without the space key run `(u + n) / 31` generation steps and leave the clock at
`(u + n) % 31`. -/
theorem clock_cadence (l : List Input) (s : State) (hp : s.paused = 0)
    (hu : 0 ≤ s.updates ∧ s.updates ≤ 30) (hl : ∀ inp ∈ l, inp.spacePressed = false) :
    ∃ s', runFrames l s = some s' ∧ s'.paused = 0 ∧
      some s'.grid = iterateStep ((s.updates.toNat + l.length) / 31) s.grid ∧
      s'.updates = (((s.updates.toNat + l.length) % 31 : Nat) : Int) := by
  induction l generalizing s with
  | nil =>
    refine ⟨s, rfl, hp, ?_, ?_⟩
    · have h0 : (s.updates.toNat + ([] : List Input).length) / 31 = 0 := by
        simp only [List.length_nil]
        omega
      rw [h0]
      rfl
    · simp only [List.length_nil]
      omega
  | cons inp rest ih =>
    obtain ⟨s1, h1, hp1, hlow, hhigh⟩ := frame_running s inp hp (hl inp (List.mem_cons_self _ _))
    have hrest : ∀ i ∈ rest, i.spacePressed = false :=
      fun i hi => hl i (List.mem_cons_of_mem _ hi)
    by_cases h30 : s.updates < 30
    · obtain ⟨hg1, hu1⟩ := hlow h30
      obtain ⟨s2, h2, hp2, hg2, hu2⟩ := ih s1 hp1 (by omega) hrest
      refine ⟨s2, ?_, hp2, ?_, ?_⟩
      · unfold runFrames
        rw [h1, Option.some_bind, h2]
      · rw [hg2, hg1]
        congr 2
        simp only [List.length_cons]
        omega
      · rw [hu2]
        simp only [List.length_cons]
        omega
    · obtain ⟨hg1, hu1⟩ := hhigh (by omega)
      obtain ⟨s2, h2, hp2, hg2, hu2⟩ := ih s1 hp1 (by omega) hrest
      refine ⟨s2, ?_, hp2, ?_, ?_⟩
      · unfold runFrames
        rw [h1, Option.some_bind, h2]
      · have hn : (s.updates.toNat + (inp :: rest).length) / 31
            = (s1.updates.toNat + rest.length) / 31 + 1 := by
          simp only [List.length_cons]
          omega
        rw [hn, hg2, iterateStep_succ, ← hg1, Option.some_bind]
      · rw [hu2]
        simp only [List.length_cons]
        omega

theorem idle_frames_nospace (n : Nat) :
    ∀ inp ∈ List.replicate n idleInput, inp.spacePressed = false := by
  intro inp hinp
  rw [List.eq_of_mem_replicate hinp]
  rfl

/-! ## The claims -/

/-- C1: on a grid of 0/1 cells the generation step returns a grid in which cell `(a, b)`
is 0 or 1 and is alive exactly when (the old cell was alive and `n` is 2 or 3) or (the old
cell was dead and `n = 3`), where `n` is `getLiveNeighborCount(a, b)` on the grid as it
was before the step. -/
theorem generationStep_rule (g : Grid) (hg : g.binary) :
    ∃ g', generationStep g = some g' ∧
      ∀ (a : Fin SQUARES_X) (b : Fin SQUARES_Y),
        ∃ n, getLiveNeighborCount g (a.val : Int) (b.val : Int) = some n ∧
          (g' a b = 0 ∨ g' a b = 1) ∧
          (g' a b = 1 ↔ (g a b = 1 ∧ (n = 2 ∨ n = 3)) ∨ (g a b = 0 ∧ n = 3)) := by
  refine ⟨_, generationStep_eq g, fun a b => ?_⟩
  have ha := a.isLt
  have hb := b.isLt
  refine ⟨_, getLiveNeighborCount_eq g _ _ (by omega) (by omega), ?_, ?_⟩
  · exact lifeRule_binary _ _ (hg a b)
  · exact lifeRule_alive_iff _ _ (hg a b)

/-- Instance of C1: the horizontal blinker at `(1,1),(2,1),(3,1)`. -/
theorem generationStep_rule_witness :
    (patternGrid [(1, 1), (2, 1), (3, 1)]).binary ∧
    ∃ g', generationStep (patternGrid [(1, 1), (2, 1), (3, 1)]) = some g' ∧
      ∀ (a : Fin SQUARES_X) (b : Fin SQUARES_Y),
        ∃ n, getLiveNeighborCount (patternGrid [(1, 1), (2, 1), (3, 1)])
            (a.val : Int) (b.val : Int) = some n ∧
          (g' a b = 0 ∨ g' a b = 1) ∧
          (g' a b = 1 ↔ (patternGrid [(1, 1), (2, 1), (3, 1)] a b = 1 ∧ (n = 2 ∨ n = 3)) ∨
            (patternGrid [(1, 1), (2, 1), (3, 1)] a b = 0 ∧ n = 3)) :=
  ⟨patternGrid_binary _, generationStep_rule _ (patternGrid_binary _)⟩

/-- C2: on a grid of 0/1 cells and for `0 ≤ x < 20`, `0 ≤ y < 20`,
`getLiveNeighborCount(x, y)` returns the number of live cells among the positions
`(x+dx, y+dy)`, `dx, dy ∈ {-1,0,1}`, `(dx,dy) ≠ (0,0)`, that lie on the grid; positions
off the grid contribute nothing and there is no wraparound. -/
theorem getLiveNeighborCount_spec (g : Grid) (hg : g.binary) (x y : Int)
    (hx : 0 ≤ x ∧ x < 20) (hy : 0 ≤ y ∧ y < 20) :
    getLiveNeighborCount g x y = some (liveNeighborSpec g x y : Int) := by
  have hx' : 0 ≤ x ∧ x < (SQUARES_X : Int) := ⟨hx.1, by simp only [SQUARES_X, Nat.cast_ofNat]; exact hx.2⟩
  have hy' : 0 ≤ y ∧ y < (SQUARES_Y : Int) := ⟨hy.1, by simp only [SQUARES_Y, Nat.cast_ofNat]; exact hy.2⟩
  rw [getLiveNeighborCount_eq g x y hx' hy', neighborSum_eq_spec g hg]

/-- Instance of C2: the cell `(0, 1)` on the left edge, with three live neighbours. -/
theorem getLiveNeighborCount_spec_witness :
    (patternGrid [(0, 0), (1, 0), (1, 1)]).binary ∧ (0 ≤ (0 : Int) ∧ (0 : Int) < 20) ∧
    (0 ≤ (1 : Int) ∧ (1 : Int) < 20) ∧
    getLiveNeighborCount (patternGrid [(0, 0), (1, 0), (1, 1)]) 0 1 =
      some (liveNeighborSpec (patternGrid [(0, 0), (1, 0), (1, 1)]) 0 1 : Int) :=
  ⟨patternGrid_binary _, by decide, by decide,
    getLiveNeighborCount_spec _ (patternGrid_binary _) 0 1 (by decide) (by decide)⟩

/-- C3: on a grid of 0/1 cells `getLiveNeighborCount(a, b)` returns an integer between 0
and 8, and it does not count the cell itself: replacing the value of cell `(a, b)` by any
`v` leaves the result unchanged. -/
theorem getLiveNeighborCount_bounds_self (g : Grid) (hg : g.binary)
    (a : Fin SQUARES_X) (b : Fin SQUARES_Y) :
    ∃ n, getLiveNeighborCount g (a.val : Int) (b.val : Int) = some n ∧ 0 ≤ n ∧ n ≤ 8 ∧
      ∀ v, getLiveNeighborCount (g.set a b v) (a.val : Int) (b.val : Int) = some n := by
  have ha := a.isLt
  have hb := b.isLt
  refine ⟨_, getLiveNeighborCount_eq g _ _ (by omega) (by omega),
    (neighborSum_bounds g hg _ _).1, (neighborSum_bounds g hg _ _).2, fun v => ?_⟩
  rw [getLiveNeighborCount_eq _ _ _ (by omega) (by omega), neighborSum_set_self]

/-- Instance of C3: the cell `(0, 1)` on the left edge. -/
theorem getLiveNeighborCount_bounds_self_witness :
    (patternGrid [(0, 0), (1, 0), (1, 1)]).binary ∧
    ∃ n, getLiveNeighborCount (patternGrid [(0, 0), (1, 0), (1, 1)])
        (((0 : Fin SQUARES_X).val : Nat) : Int) (((1 : Fin SQUARES_Y).val : Nat) : Int) = some n ∧
      0 ≤ n ∧ n ≤ 8 ∧
      ∀ v, getLiveNeighborCount ((patternGrid [(0, 0), (1, 0), (1, 1)]).set 0 1 v)
        (((0 : Fin SQUARES_X).val : Nat) : Int) (((1 : Fin SQUARES_Y).val : Nat) : Int) = some n :=
  ⟨patternGrid_binary _, getLiveNeighborCount_bounds_self _ (patternGrid_binary _) 0 1⟩


/-- C4: in a frame with no left click and no clear key, if the pause flag after the
pause-toggle handling is set, or the clock test `updates >= FPS/UPDATES_PER_SECOND` fails,
the frame returns and the grid after the frame equals the grid before it. -/
theorem frame_grid_unchanged (s : State) (inp : Input)
    (hl : inp.leftPressed = false) (hc : inp.cPressed = false)
    (h : togglePause s.paused inp ≠ 0 ∨ ¬ (s.updates ≥ FPS.tdiv UPDATES_PER_SECOND)) :
    ∃ s', UpdateDrawFrame s inp = some s' ∧ s'.grid = s.grid := by
  have h1 := handleClick_skip (togglePause s.paused inp)
    (GetScreenToWorld2D inp.mousePosition s.camera) inp s.grid (by simp [hl])
  have h2 := handleClear_skip (togglePause s.paused inp) inp s.grid (by simp [hc])
  rcases h with hp | hu
  · exact ⟨_, UpdateDrawFrame_eq s inp _ _ _ _ h1 h2 (simulationTick_paused _ _ _ hp), rfl⟩
  · exact ⟨_, UpdateDrawFrame_eq s inp _ _ _ _ h1 h2 (simulationTick_early _ _ _ hu), rfl⟩

/-- Instance of C4: an idle frame of a running simulation before the clock threshold. -/
theorem frame_grid_unchanged_witness :
    idleInput.leftPressed = false ∧ idleInput.cPressed = false ∧
    (togglePause playingState.paused idleInput ≠ 0 ∨
      ¬ (playingState.updates ≥ FPS.tdiv UPDATES_PER_SECOND)) ∧
    ∃ s', UpdateDrawFrame playingState idleInput = some s' ∧ s'.grid = playingState.grid :=
  ⟨rfl, rfl, Or.inr (by decide),
    frame_grid_unchanged playingState idleInput rfl rfl (Or.inr (by decide))⟩

/-- C5: in a frame in which the pause flag is 0 when the click and clear events are
processed, the click handler followed by the clear handler returns the grid unchanged,
whatever the mouse position and whether or not the left button and "c" were pressed. -/
theorem input_noop_unpaused (s : State) (inp : Input) (hp : togglePause s.paused inp = 0) :
    (handleClick (togglePause s.paused inp) (GetScreenToWorld2D inp.mousePosition s.camera)
        inp s.grid).bind (handleClear (togglePause s.paused inp) inp) = some s.grid := by
  rw [handleClick_skip _ _ _ _ (by simp [hp]), Option.some_bind,
    handleClear_skip _ _ _ (by simp [hp])]

/-- Instance of C5: a click and a clear in one frame of a running simulation. -/
theorem input_noop_unpaused_witness :
    togglePause playingState.paused clickAndClearInput = 0 ∧
    (handleClick (togglePause playingState.paused clickAndClearInput)
        (GetScreenToWorld2D clickAndClearInput.mousePosition playingState.camera)
        clickAndClearInput playingState.grid).bind
      (handleClear (togglePause playingState.paused clickAndClearInput) clickAndClearInput)
      = some playingState.grid :=
  ⟨by decide, input_noop_unpaused playingState clickAndClearInput (by decide)⟩

/-- C6 (the code at the failing input): in the initial, paused state a left click with
the mouse at pixel `(0, 5)` has world point `(0, 5)`, inside `[0, 640) x [0, 640)`, over
cell `(0, 0)`; the frame returns with cell `(0, 0)` still 0, not flipped to 1. -/
theorem click_on_left_border_ignored :
    togglePause initialState.paused borderClick ≠ 0 ∧
    borderClick.leftPressed = true ∧ borderClick.cPressed = false ∧
    (GetScreenToWorld2D borderClick.mousePosition initialState.camera).x = 0 ∧
    (GetScreenToWorld2D borderClick.mousePosition initialState.camera).y = 5 ∧
    (truncToInt 0).tdiv SQUARE_SIZE = 0 ∧ (truncToInt 5).tdiv SQUARE_SIZE = 0 ∧
    initialState.grid 0 0 = 0 ∧
    ∃ s', UpdateDrawFrame initialState borderClick = some s' ∧ s'.grid 0 0 = 0 := by
  have hx : (GetScreenToWorld2D borderClick.mousePosition initialState.camera).x = 0 := by
    norm_num [GetScreenToWorld2D, borderClick, idleInput, initialState]
  have hy : (GetScreenToWorld2D borderClick.mousePosition initialState.camera).y = 5 := by
    norm_num [GetScreenToWorld2D, borderClick, idleInput, initialState]
  have hp : togglePause initialState.paused borderClick ≠ 0 := by decide
  refine ⟨hp, rfl, rfl, hx, hy, ?_, ?_, rfl, ?_⟩
  · simp [truncToInt]
  · have h5 : truncToInt 5 = 5 := by norm_num [truncToInt]
    rw [h5]
    decide
  · have h1 := handleClick_outside (togglePause initialState.paused borderClick)
      (GetScreenToWorld2D borderClick.mousePosition initialState.camera) borderClick
      initialState.grid (by rw [hx]; simp)
    have h2 := handleClear_skip (togglePause initialState.paused borderClick) borderClick
      initialState.grid (by simp [borderClick, idleInput])
    exact ⟨_, UpdateDrawFrame_eq _ _ _ _ _ _ h1 h2 (simulationTick_paused _ _ _ hp), rfl⟩

/-- C7: in a frame in which the pause flag is set when the clear event is processed and
"c" was pressed, the frame returns and every cell of the grid is 0 at its end, whether or
not a cell was also clicked in that frame. -/
theorem clear_paused_all_dead (s : State) (inp : Input)
    (hp : togglePause s.paused inp ≠ 0) (hc : inp.cPressed = true) :
    ∃ s', UpdateDrawFrame s inp = some s' ∧ ∀ a b, s'.grid a b = 0 := by
  obtain ⟨g1, h1⟩ := handleClick_isSome (togglePause s.paused inp)
    (GetScreenToWorld2D inp.mousePosition s.camera) inp s.grid
  have h2 := handleClear_clear (togglePause s.paused inp) inp g1 ⟨hc, hp⟩
  exact ⟨_, UpdateDrawFrame_eq s inp _ _ _ _ h1 h2 (simulationTick_paused _ _ _ hp),
    fun _ _ => rfl⟩

/-- Instance of C7: a click and a clear in one frame of the initial, paused state. -/
theorem clear_paused_all_dead_witness :
    togglePause initialState.paused clickAndClearInput ≠ 0 ∧
    clickAndClearInput.cPressed = true ∧
    ∃ s', UpdateDrawFrame initialState clickAndClearInput = some s' ∧ ∀ a b, s'.grid a b = 0 :=
  ⟨by decide, rfl, clear_paused_all_dead initialState clickAndClearInput (by decide) rfl⟩

/-- C8 (amended): for `0 ≤ x ≤ 17` and `1 ≤ y ≤ 18`, so that the row and the column both
lie on the grid, the grid in which exactly `(x,y),(x+1,y),(x+2,y)` are alive is mapped by
one generation step to the grid in which exactly `(x+1,y-1),(x+1,y),(x+1,y+1)` are alive,
and by two generation steps back to itself. -/
theorem blinker_oscillates (x y : Int) (hx : 0 ≤ x ∧ x + 2 < 20) (hy : 1 ≤ y ∧ y + 1 < 20) :
    generationStep (patternGrid [(x, y), (x + 1, y), (x + 2, y)])
      = some (patternGrid [(x + 1, y - 1), (x + 1, y), (x + 1, y + 1)]) ∧
    iterateStep 2 (patternGrid [(x, y), (x + 1, y), (x + 2, y)])
      = some (patternGrid [(x, y), (x + 1, y), (x + 2, y)]) := by
  have hrow : [(x, y), (x + 1, y), (x + 2, y)] = shift x y [(0, 0), (1, 0), (2, 0)] := by
    simp [shift]
  have hcol : [(x + 1, y - 1), (x + 1, y), (x + 1, y + 1)]
      = shift x y [(1, -1), (1, 0), (1, 1)] := by
    simp [shift, sub_eq_add_neg]
  have h1 : generationStep (patternGrid (shift x y [(0, 0), (1, 0), (2, 0)]))
      = some (patternGrid (shift x y [(1, -1), (1, 0), (1, 1)])) := by
    apply pattern_step _ _ _ _ _ horizontal_blinker_next
    simp only [shift, List.map_cons, List.map_nil, List.mem_cons, List.mem_singleton,
      List.not_mem_nil, or_false, forall_eq_or_imp, forall_eq, onGrid_iff, SQUARES_X, SQUARES_Y,
      Nat.cast_ofNat]
    omega
  have h2 : generationStep (patternGrid (shift x y [(1, -1), (1, 0), (1, 1)]))
      = some (patternGrid (shift x y [(0, 0), (1, 0), (2, 0)])) := by
    apply pattern_step _ _ _ _ _ vertical_blinker_next
    simp only [shift, List.map_cons, List.map_nil, List.mem_cons, List.mem_singleton,
      List.not_mem_nil, or_false, forall_eq_or_imp, forall_eq, onGrid_iff, SQUARES_X, SQUARES_Y,
      Nat.cast_ofNat]
    omega
  rw [hrow, hcol]
  exact ⟨h1, iterateStep_two _ _ _ h1 h2⟩

/-- Instance of C8 (amended): the blinker with its row at `(3,4),(4,4),(5,4)`. -/
theorem blinker_oscillates_witness :
    (0 ≤ (3 : Int) ∧ (3 : Int) + 2 < 20) ∧ (1 ≤ (4 : Int) ∧ (4 : Int) + 1 < 20) ∧
    generationStep (patternGrid [(3, 4), (3 + 1, 4), (3 + 2, 4)])
      = some (patternGrid [(3 + 1, 4 - 1), (3 + 1, 4), (3 + 1, 4 + 1)]) ∧
    iterateStep 2 (patternGrid [(3, 4), (3 + 1, 4), (3 + 2, 4)])
      = some (patternGrid [(3, 4), (3 + 1, 4), (3 + 2, 4)]) :=
  ⟨by decide, by decide, blinker_oscillates 3 4 (by decide) (by decide)⟩

/-- C8 (counterexample): the row `(0,0),(1,0),(2,0)` lies on the grid, but two generation
steps take it to the all-dead grid, not back to itself. -/
theorem blinker_top_row_counterexample :
    (onGrid (0, 0) = true ∧ onGrid (0 + 1, 0) = true ∧ onGrid (0 + 2, 0) = true) ∧
    iterateStep 2 (patternGrid [(0, 0), (0 + 1, 0), (0 + 2, 0)]) = some zeroGrid ∧
    iterateStep 2 (patternGrid [(0, 0), (0 + 1, 0), (0 + 2, 0)])
      ≠ some (patternGrid [(0, 0), (0 + 1, 0), (0 + 2, 0)]) := by
  have h1 : generationStep (patternGrid (shift 0 0 [(0, 0), (1, 0), (2, 0)]))
      = some (patternGrid (shift 0 0 [(1, -1), (1, 0), (1, 1)])) := by
    apply pattern_step _ _ _ _ _ horizontal_blinker_next
    decide
  have hclip : patternGrid (shift 0 0 [(1, -1), (1, 0), (1, 1)])
      = patternGrid (shift 1 0 [(0, 0), (0, 1)]) := by
    funext a b
    have hb : (0 : Int) ≤ (b.val : Int) := Int.ofNat_nonneg _
    simp only [patternGrid, shift, List.map_cons, List.map_nil, List.mem_cons, Prod.mk.injEq,
      List.mem_singleton, List.not_mem_nil, or_false]
    refine if_congr ?_ rfl rfl
    constructor <;> intro h <;> omega
  have h2 : generationStep (patternGrid (shift 1 0 [(0, 0), (0, 1)]))
      = some (patternGrid (shift 1 0 [])) := by
    apply pattern_step _ _ _ _ _ domino_next
    decide
  have h3 : iterateStep 2 (patternGrid [(0, 0), (0 + 1, 0), (0 + 2, 0)]) = some zeroGrid := by
    rw [← patternGrid_nil]
    exact iterateStep_two _ _ _ h1 (hclip ▸ h2)
  refine ⟨⟨by decide, by decide, by decide⟩, h3, ?_⟩
  rw [h3]
  intro h
  have h00 := congrFun (congrFun (Option.some.inj h) 0) 0
  revert h00
  decide

/-- C9: for `0 ≤ x ≤ 18` and `0 ≤ y ≤ 18` the grid in which exactly the four cells
`(x,y),(x+1,y),(x,y+1),(x+1,y+1)` are alive is a fixed point of the generation step, and of
any number of steps. -/
theorem block_still_life (x y : Int) (hx : 0 ≤ x ∧ x ≤ 18) (hy : 0 ≤ y ∧ y ≤ 18) :
    generationStep (patternGrid [(x, y), (x + 1, y), (x, y + 1), (x + 1, y + 1)])
      = some (patternGrid [(x, y), (x + 1, y), (x, y + 1), (x + 1, y + 1)]) ∧
    ∀ n, iterateStep n (patternGrid [(x, y), (x + 1, y), (x, y + 1), (x + 1, y + 1)])
      = some (patternGrid [(x, y), (x + 1, y), (x, y + 1), (x + 1, y + 1)]) := by
  have hblock : [(x, y), (x + 1, y), (x, y + 1), (x + 1, y + 1)]
      = shift x y [(0, 0), (1, 0), (0, 1), (1, 1)] := by
    simp [shift]
  have h1 : generationStep (patternGrid (shift x y [(0, 0), (1, 0), (0, 1), (1, 1)]))
      = some (patternGrid (shift x y [(0, 0), (1, 0), (0, 1), (1, 1)])) := by
    apply pattern_step _ _ _ _ _ block_next
    simp only [shift, List.map_cons, List.map_nil, List.mem_cons, List.mem_singleton,
      List.not_mem_nil, or_false, forall_eq_or_imp, forall_eq, onGrid_iff, SQUARES_X, SQUARES_Y,
      Nat.cast_ofNat]
    omega
  rw [hblock]
  exact ⟨h1, iterateStep_fixed _ h1⟩

/-- Instance of C9: the block in the corner `(18,0),(19,0),(18,1),(19,1)`. -/
theorem block_still_life_witness :
    (0 ≤ (18 : Int) ∧ (18 : Int) ≤ 18) ∧ (0 ≤ (0 : Int) ∧ (0 : Int) ≤ 18) ∧
    generationStep (patternGrid [(18, 0), (18 + 1, 0), (18, 0 + 1), (18 + 1, 0 + 1)])
      = some (patternGrid [(18, 0), (18 + 1, 0), (18, 0 + 1), (18 + 1, 0 + 1)]) ∧
    ∀ n, iterateStep n (patternGrid [(18, 0), (18 + 1, 0), (18, 0 + 1), (18 + 1, 0 + 1)])
      = some (patternGrid [(18, 0), (18 + 1, 0), (18, 0 + 1), (18 + 1, 0 + 1)]) :=
  ⟨by decide, by decide, block_still_life 18 0 (by decide) (by decide)⟩

/-- C10: for every cell `(x, y)` of the grid, the grid in which `(x, y)` is the only live
cell is mapped by one generation step to the all-dead grid. -/
theorem single_cell_dies (x y : Int) (hx : 0 ≤ x ∧ x < 20) (hy : 0 ≤ y ∧ y < 20) :
    generationStep (patternGrid [(x, y)]) = some zeroGrid := by
  have hcell : [(x, y)] = shift x y [(0, 0)] := by
    simp [shift]
  have h1 : generationStep (patternGrid (shift x y [(0, 0)]))
      = some (patternGrid (shift x y [])) := by
    apply pattern_step _ _ _ _ _ single_cell_next
    simp only [shift, List.map_cons, List.map_nil, List.mem_cons, List.mem_singleton,
      List.not_mem_nil, or_false, forall_eq_or_imp, forall_eq, onGrid_iff, SQUARES_X, SQUARES_Y,
      Nat.cast_ofNat]
    omega
  rw [hcell, h1]
  exact congrArg some patternGrid_nil

/-- Instance of C10: the lone cell `(19, 7)` on the right edge. -/
theorem single_cell_dies_witness :
    (0 ≤ (19 : Int) ∧ (19 : Int) < 20) ∧ (0 ≤ (7 : Int) ∧ (7 : Int) < 20) ∧
    generationStep (patternGrid [(19, 7)]) = some zeroGrid :=
  ⟨by decide, by decide, single_cell_dies 19 7 (by decide) (by decide)⟩

/-- C11: applying the generation step to the all-dead grid yields the all-dead grid. -/
theorem all_dead_stays_dead : generationStep zeroGrid = some zeroGrid := by
  have h := pattern_step [] [] 0 0 (fun p hp => absurd hp (List.not_mem_nil p)) empty_next
  have hs : shift 0 0 [] = [] := rfl
  rw [hs, patternGrid_nil] at h
  exact h

/-- C12 (the code at the failing input): from a running state with the clock at 0 holding
a horizontal blinker, 30 idle frames leave the grid unchanged and the clock at 30, so no
generation step ran on frame 30; the first step runs on frame 31, which resets the clock;
and after 60 frames exactly one step has run (the blinker is vertical, the clock is at
29). -/
theorem first_step_on_frame_31 :
    clockStartState.paused = 0 ∧ clockStartState.updates = 0 ∧
    (∃ s, runFrames (List.replicate 30 idleInput) clockStartState = some s ∧
      s.grid = clockStartState.grid ∧ s.updates = 30) ∧
    (∃ s, runFrames (List.replicate 31 idleInput) clockStartState = some s ∧
      s.grid = patternGrid [(2, 0), (2, 1), (2, 2)] ∧ s.updates = 0) ∧
    (∃ s, runFrames (List.replicate 60 idleInput) clockStartState = some s ∧
      some s.grid = iterateStep 1 clockStartState.grid ∧
      s.grid = patternGrid [(2, 0), (2, 1), (2, 2)] ∧ s.updates = 29) ∧
    patternGrid [(2, 0), (2, 1), (2, 2)] ≠ clockStartState.grid := by
  have hstep : generationStep clockStartState.grid
      = some (patternGrid [(2, 0), (2, 1), (2, 2)]) := by
    have h := pattern_step [(0, 0), (1, 0), (2, 0)] [(1, -1), (1, 0), (1, 1)] 1 1 (by decide)
      horizontal_blinker_next
    exact h
  have hcad : ∀ n, ∃ s, runFrames (List.replicate n idleInput) clockStartState = some s ∧
      s.paused = 0 ∧ some s.grid = iterateStep (n / 31) clockStartState.grid ∧
      s.updates = ((n % 31 : Nat) : Int) := by
    intro n
    have h := clock_cadence (List.replicate n idleInput) clockStartState rfl
      (by decide) (idle_frames_nospace n)
    simpa [clockStartState] using h
  refine ⟨rfl, rfl, ?_, ?_, ?_, ?_⟩
  · obtain ⟨s, h, -, hg, hu⟩ := hcad 30
    exact ⟨s, h, (Option.some.inj hg), hu⟩
  · obtain ⟨s, h, -, hg, hu⟩ := hcad 31
    refine ⟨s, h, ?_, hu⟩
    have h1 : (31 : Nat) / 31 = 1 := by decide
    rw [h1, iterateStep_one, hstep] at hg
    exact Option.some.inj hg
  · obtain ⟨s, h, -, hg, hu⟩ := hcad 60
    have h1 : (60 : Nat) / 31 = 1 := by decide
    rw [h1] at hg
    refine ⟨s, h, hg, ?_, hu⟩
    rw [iterateStep_one, hstep] at hg
    exact Option.some.inj hg
  · intro h
    have h20 := congrFun (congrFun h 2) 0
    revert h20
    decide

/-- C13: over exact arithmetic with `world = (screen - offset)/zoom + target`, in a frame
with a nonzero wheel delta let `q` be the world point under the pointer `p` before the
update. The updated camera has `offset = p` and `target = q`, the world point under `p`
is still `q`, and `q` maps to the screen point `p`: `(q - target) * zoom + offset = p`.
This holds for every camera, in particular for `zoom > 0` and a frame with no pan. -/
theorem zoom_keeps_point_under_cursor (camera : Camera2D) (inp : Input)
    (hw : inp.wheel ≠ 0) :
    (updateCamera camera (GetScreenToWorld2D inp.mousePosition camera) inp).offset
      = inp.mousePosition ∧
    (updateCamera camera (GetScreenToWorld2D inp.mousePosition camera) inp).target
      = GetScreenToWorld2D inp.mousePosition camera ∧
    GetScreenToWorld2D inp.mousePosition
        (updateCamera camera (GetScreenToWorld2D inp.mousePosition camera) inp)
      = GetScreenToWorld2D inp.mousePosition camera ∧
    ((GetScreenToWorld2D inp.mousePosition camera).x
        - (updateCamera camera (GetScreenToWorld2D inp.mousePosition camera) inp).target.x)
      * (updateCamera camera (GetScreenToWorld2D inp.mousePosition camera) inp).zoom
      + (updateCamera camera (GetScreenToWorld2D inp.mousePosition camera) inp).offset.x
      = inp.mousePosition.x ∧
    ((GetScreenToWorld2D inp.mousePosition camera).y
        - (updateCamera camera (GetScreenToWorld2D inp.mousePosition camera) inp).target.y)
      * (updateCamera camera (GetScreenToWorld2D inp.mousePosition camera) inp).zoom
      + (updateCamera camera (GetScreenToWorld2D inp.mousePosition camera) inp).offset.y
      = inp.mousePosition.y := by
  obtain ⟨hoff, htar, -⟩ :=
    updateCamera_wheel camera (GetScreenToWorld2D inp.mousePosition camera) inp hw
  refine ⟨hoff, htar, ?_, ?_, ?_⟩
  · generalize updateCamera camera (GetScreenToWorld2D inp.mousePosition camera) inp = c at *
    generalize GetScreenToWorld2D inp.mousePosition camera = q at *
    unfold GetScreenToWorld2D
    rw [hoff, htar]
    simp
  · rw [hoff, htar]
    simp
  · rw [hoff, htar]
    simp

/-- Instance of C13: a wheel notch at pixel `(100, 50)` with the initial camera. -/
theorem zoom_keeps_point_under_cursor_witness :
    wheelInput.wheel ≠ 0 ∧
    GetScreenToWorld2D wheelInput.mousePosition
        (updateCamera initialState.camera
          (GetScreenToWorld2D wheelInput.mousePosition initialState.camera) wheelInput)
      = GetScreenToWorld2D wheelInput.mousePosition initialState.camera :=
  ⟨by norm_num [wheelInput, idleInput],
    (zoom_keeps_point_under_cursor initialState.camera wheelInput
      (by norm_num [wheelInput, idleInput])).2.2.1⟩

/-- C14: over exact arithmetic, starting from the initial state (zoom 1.0), any sequence of
frames with any wheel deltas (positive, negative or zero) returns, and afterwards the
camera zoom is at least the zoom increment 0.125; in particular it is positive. -/
theorem zoom_never_below_increment (l : List Input) :
    ∃ s', runFrames l initialState = some s' ∧
      zoomIncrement ≤ s'.camera.zoom ∧ (1 / 8 : ℚ) ≤ s'.camera.zoom ∧ 0 < s'.camera.zoom := by
  obtain ⟨s', h, hz⟩ := runFrames_zoom_ge l initialState
    (by norm_num [zoomIncrement, initialState])
  refine ⟨s', h, hz, hz, ?_⟩
  have : (0 : ℚ) < zoomIncrement := by norm_num [zoomIncrement]
  exact lt_of_lt_of_le this hz

/-- C15: for `0 ≤ x < 20` and `0 ≤ y < 20` every grid read of `getLiveNeighborCount(x, y)`
stays on the grid: with `none` for an out-of-range subscript the function returns a
value, on every grid; and so does the generation step, which covers all of its calls. -/
theorem neighbor_reads_in_bounds (g : Grid) (x y : Int)
    (hx : 0 ≤ x ∧ x < 20) (hy : 0 ≤ y ∧ y < 20) :
    (∃ n, getLiveNeighborCount g x y = some n) ∧ ∃ g', generationStep g = some g' := by
  have hx' : 0 ≤ x ∧ x < (SQUARES_X : Int) :=
    ⟨hx.1, by simp only [SQUARES_X, Nat.cast_ofNat]; exact hx.2⟩
  have hy' : 0 ≤ y ∧ y < (SQUARES_Y : Int) :=
    ⟨hy.1, by simp only [SQUARES_Y, Nat.cast_ofNat]; exact hy.2⟩
  exact ⟨⟨_, getLiveNeighborCount_eq g x y hx' hy'⟩, generationStep_isSome g⟩

/-- Instance of C15: the corner cell `(19, 19)` of the all-dead grid. -/
theorem neighbor_reads_in_bounds_witness :
    (0 ≤ (19 : Int) ∧ (19 : Int) < 20) ∧ (0 ≤ (19 : Int) ∧ (19 : Int) < 20) ∧
    (∃ n, getLiveNeighborCount zeroGrid 19 19 = some n) ∧
    ∃ g', generationStep zeroGrid = some g' :=
  ⟨by decide, by decide, neighbor_reads_in_bounds zeroGrid 19 19 (by decide) (by decide)⟩

/-- C16: for every world point that passes the range check of the click handler, the
indices `((int)wx / 32, (int)wy / 32)` satisfy `0 ≤ x < 20` and `0 ≤ y < 20`, and the
toggle, which writes at these indices, returns. -/
theorem click_indices_in_bounds (paused : Int) (inp : Input) (grid : Grid) (w : Vector2)
    (h : w.x > 0 ∧ w.x < ((SQUARE_SIZE * SQUARES_X : Int) : ℚ) ∧
      w.y > 0 ∧ w.y < ((SQUARE_SIZE * SQUARES_Y : Int) : ℚ)) :
    (0 ≤ (truncToInt w.x).tdiv SQUARE_SIZE ∧ (truncToInt w.x).tdiv SQUARE_SIZE < 20) ∧
    (0 ≤ (truncToInt w.y).tdiv SQUARE_SIZE ∧ (truncToInt w.y).tdiv SQUARE_SIZE < 20) ∧
    ∃ g', handleClick paused w inp grid = some g' :=
  ⟨cellIndex_range w.x h.1 h.2.1, cellIndex_range w.y h.2.2.1 h.2.2.2,
    handleClick_isSome paused w inp grid⟩

/-- Instance of C16: the world point `(639, 1/2)`, over the cell `(19, 0)`. -/
theorem click_indices_in_bounds_witness :
    ((639 : ℚ) > 0 ∧ (639 : ℚ) < ((SQUARE_SIZE * SQUARES_X : Int) : ℚ) ∧
      (1 / 2 : ℚ) > 0 ∧ (1 / 2 : ℚ) < ((SQUARE_SIZE * SQUARES_Y : Int) : ℚ)) ∧
    (0 ≤ (truncToInt (639 : ℚ)).tdiv SQUARE_SIZE ∧ (truncToInt (639 : ℚ)).tdiv SQUARE_SIZE < 20) ∧
    (0 ≤ (truncToInt (1 / 2 : ℚ)).tdiv SQUARE_SIZE ∧
      (truncToInt (1 / 2 : ℚ)).tdiv SQUARE_SIZE < 20) ∧
    ∃ g', handleClick 1 ⟨639, 1 / 2⟩ clickAndClearInput zeroGrid = some g' :=
  ⟨by norm_num, click_indices_in_bounds 1 clickAndClearInput zeroGrid ⟨639, 1 / 2⟩ (by norm_num)⟩

/-- C17: starting from the initial state with its zero-initialised grid, any sequence of
frames with arbitrary inputs returns, and afterwards every cell of the grid holds exactly
0 or 1; so a cell is alive (nonzero) exactly when the renderer's test `grid[x][y] == 1`
holds. -/
theorem cells_stay_binary (l : List Input) :
    ∃ s', runFrames l initialState = some s' ∧
      (∀ a b, s'.grid a b = 0 ∨ s'.grid a b = 1) ∧
      ∀ a b, s'.grid a b ≠ 0 ↔ s'.grid a b = 1 := by
  obtain ⟨s', h, hb⟩ := runFrames_binary l initialState zeroGrid_binary
  refine ⟨s', h, hb, fun a b => ?_⟩
  rcases hb a b with h0 | h1
  · simp [h0]
  · simp [h1]

/-- C18: in a paused frame with a left click and no clear key, if the world point under
the mouse satisfies `0 < wx < 640` and `0 < wy < 640`, the frame returns a grid in which
exactly the cell `((int)wx / 32, (int)wy / 32)` is flipped (0 becomes 1, anything else
becomes 0) and every other cell keeps its value; if `wx ≤ 0`, `wx ≥ 640`, `wy ≤ 0` or
`wy ≥ 640`, the frame returns the grid unchanged. -/
theorem click_exact_effect (s : State) (inp : Input)
    (hp : togglePause s.paused inp ≠ 0) (hl : inp.leftPressed = true)
    (hc : inp.cPressed = false) :
    ((0 < (GetScreenToWorld2D inp.mousePosition s.camera).x ∧
        (GetScreenToWorld2D inp.mousePosition s.camera).x < 640 ∧
        0 < (GetScreenToWorld2D inp.mousePosition s.camera).y ∧
        (GetScreenToWorld2D inp.mousePosition s.camera).y < 640) →
      ∃ (s' : State) (a : Fin SQUARES_X) (b : Fin SQUARES_Y),
        UpdateDrawFrame s inp = some s' ∧
        (a.val : Int)
          = (truncToInt (GetScreenToWorld2D inp.mousePosition s.camera).x).tdiv 32 ∧
        (b.val : Int)
          = (truncToInt (GetScreenToWorld2D inp.mousePosition s.camera).y).tdiv 32 ∧
        s'.grid a b = (if s.grid a b = 0 then 1 else 0) ∧
        ∀ a' b', ¬ (a' = a ∧ b' = b) → s'.grid a' b' = s.grid a' b') ∧
    (((GetScreenToWorld2D inp.mousePosition s.camera).x ≤ 0 ∨
        (GetScreenToWorld2D inp.mousePosition s.camera).x ≥ 640 ∨
        (GetScreenToWorld2D inp.mousePosition s.camera).y ≤ 0 ∨
        (GetScreenToWorld2D inp.mousePosition s.camera).y ≥ 640) →
      ∃ s', UpdateDrawFrame s inp = some s' ∧ s'.grid = s.grid) := by
  have hclear : ∀ g, handleClear (togglePause s.paused inp) inp g = some g :=
    fun g => handleClear_skip _ inp g (by simp [hc])
  constructor
  · intro hin
    obtain ⟨a, b, ha, hb, h1⟩ := handleClick_inside (togglePause s.paused inp)
      (GetScreenToWorld2D inp.mousePosition s.camera) inp s.grid ⟨hl, hp⟩
      (by
        simp only [SQUARE_SIZE, SQUARES_X, SQUARES_Y, Nat.cast_ofNat]
        norm_num
        exact hin)
    refine ⟨_, a, b, UpdateDrawFrame_eq s inp _ _ _ _ h1 (hclear _)
      (simulationTick_paused _ _ _ hp), ha, hb, ?_, ?_⟩
    · show (s.grid.set a b (lnot (s.grid a b))) a b = _
      rw [Grid.set_same]
      rfl
    · intro a' b' hne
      show (s.grid.set a b (lnot (s.grid a b))) a' b' = _
      unfold Grid.set
      rw [if_neg hne]
  · intro hout
    have h1 := handleClick_outside (togglePause s.paused inp)
      (GetScreenToWorld2D inp.mousePosition s.camera) inp s.grid
      (by
        simp only [SQUARE_SIZE, SQUARES_X, SQUARES_Y, Nat.cast_ofNat]
        norm_num
        intro h0 h640 hy0
        rcases hout with h | h | h | h
        · exact absurd h0 (not_lt.2 h)
        · exact absurd h640 (not_lt.2 h)
        · exact absurd hy0 (not_lt.2 h)
        · exact h)
    exact ⟨_, UpdateDrawFrame_eq s inp _ _ _ _ h1 (hclear _)
      (simulationTick_paused _ _ _ hp), rfl⟩

/-- Instance of C18: a click at pixel `(40, 40)` in the initial, paused state. -/
theorem click_exact_effect_witness :
    togglePause initialState.paused insideClick ≠ 0 ∧ insideClick.leftPressed = true ∧
    insideClick.cPressed = false ∧
    (0 < (GetScreenToWorld2D insideClick.mousePosition initialState.camera).x ∧
      (GetScreenToWorld2D insideClick.mousePosition initialState.camera).x < 640 ∧
      0 < (GetScreenToWorld2D insideClick.mousePosition initialState.camera).y ∧
      (GetScreenToWorld2D insideClick.mousePosition initialState.camera).y < 640) ∧
    ∃ (s' : State) (a : Fin SQUARES_X) (b : Fin SQUARES_Y),
      UpdateDrawFrame initialState insideClick = some s' ∧
      (a.val : Int)
        = (truncToInt (GetScreenToWorld2D insideClick.mousePosition initialState.camera).x).tdiv 32 ∧
      (b.val : Int)
        = (truncToInt (GetScreenToWorld2D insideClick.mousePosition initialState.camera).y).tdiv 32 ∧
      s'.grid a b = (if initialState.grid a b = 0 then 1 else 0) ∧
      ∀ a' b', ¬ (a' = a ∧ b' = b) → s'.grid a' b' = initialState.grid a' b' :=
  have hin : 0 < (GetScreenToWorld2D insideClick.mousePosition initialState.camera).x ∧
      (GetScreenToWorld2D insideClick.mousePosition initialState.camera).x < 640 ∧
      0 < (GetScreenToWorld2D insideClick.mousePosition initialState.camera).y ∧
      (GetScreenToWorld2D insideClick.mousePosition initialState.camera).y < 640 := by
    norm_num [GetScreenToWorld2D, insideClick, idleInput, initialState]
  ⟨by decide, rfl, rfl, hin,
    (click_exact_effect initialState insideClick (by decide) rfl rfl).1 hin⟩

/-- C19: the pause toggle is applied before the click and clear events of the same frame.
In a frame with the space key and a left click whose world point lies strictly inside the
grid: if the frame begins unpaused, the click handler toggles the clicked cell, the tick
returns every grid unchanged (no generation step runs) and the frame ends paused with the
grid of the input phase; if the frame begins paused, the click handler changes no cell,
the frame ends unpaused, and at the clock threshold the generation step runs in that same
frame. -/
theorem pause_toggle_before_click (s : State) (inp : Input)
    (hs : inp.spacePressed = true) (hl : inp.leftPressed = true)
    (hin : 0 < (GetScreenToWorld2D inp.mousePosition s.camera).x ∧
      (GetScreenToWorld2D inp.mousePosition s.camera).x < 640 ∧
      0 < (GetScreenToWorld2D inp.mousePosition s.camera).y ∧
      (GetScreenToWorld2D inp.mousePosition s.camera).y < 640) :
    (s.paused = 0 →
      ∃ (s' : State) (a : Fin SQUARES_X) (b : Fin SQUARES_Y),
        (a.val : Int)
          = (truncToInt (GetScreenToWorld2D inp.mousePosition s.camera).x).tdiv 32 ∧
        (b.val : Int)
          = (truncToInt (GetScreenToWorld2D inp.mousePosition s.camera).y).tdiv 32 ∧
        handleClick (togglePause s.paused inp) (GetScreenToWorld2D inp.mousePosition s.camera)
          inp s.grid = some (s.grid.set a b (lnot (s.grid a b))) ∧
        (∀ g u, ∃ u', simulationTick (togglePause s.paused inp) g u = some (g, u')) ∧
        UpdateDrawFrame s inp = some s' ∧ s'.paused = 1 ∧
        s'.grid = (if inp.cPressed = true then zeroGrid
          else s.grid.set a b (lnot (s.grid a b)))) ∧
    (s.paused ≠ 0 →
      handleClick (togglePause s.paused inp) (GetScreenToWorld2D inp.mousePosition s.camera)
        inp s.grid = some s.grid ∧
      ∃ s', UpdateDrawFrame s inp = some s' ∧ s'.paused = 0 ∧
        (30 ≤ s.updates → some s'.grid = generationStep s.grid ∧ s'.updates = 0) ∧
        (s.updates < 30 → s'.grid = s.grid)) := by
  constructor
  · intro hp0
    have hp : togglePause s.paused inp = 1 := by
      unfold togglePause
      rw [hs, hp0]
      rfl
    have hpne : togglePause s.paused inp ≠ 0 := by
      rw [hp]
      decide
    obtain ⟨a, b, ha, hb, h1⟩ := handleClick_inside (togglePause s.paused inp)
      (GetScreenToWorld2D inp.mousePosition s.camera) inp s.grid ⟨hl, hpne⟩
      (by
        simp only [SQUARE_SIZE, SQUARES_X, SQUARES_Y, Nat.cast_ofNat]
        norm_num
        exact hin)
    have htick : ∀ g u, ∃ u', simulationTick (togglePause s.paused inp) g u = some (g, u') :=
      fun g u => ⟨_, simulationTick_paused _ g u hpne⟩
    by_cases hc : inp.cPressed = true
    · have h2 := handleClear_clear (togglePause s.paused inp) inp
        (s.grid.set a b (lnot (s.grid a b))) ⟨hc, hpne⟩
      refine ⟨_, a, b, ha, hb, h1, htick,
        UpdateDrawFrame_eq s inp _ _ _ _ h1 h2 (simulationTick_paused _ _ _ hpne), hp, ?_⟩
      rw [if_pos hc]
    · have h2 := handleClear_skip (togglePause s.paused inp) inp
        (s.grid.set a b (lnot (s.grid a b))) (fun h => hc h.1)
      refine ⟨_, a, b, ha, hb, h1, htick,
        UpdateDrawFrame_eq s inp _ _ _ _ h1 h2 (simulationTick_paused _ _ _ hpne), hp, ?_⟩
      rw [if_neg hc]
  · intro hpne
    have hp : togglePause s.paused inp = 0 := by
      unfold togglePause lnot
      rw [hs]
      simp [hpne]
    have h1 := handleClick_skip (togglePause s.paused inp)
      (GetScreenToWorld2D inp.mousePosition s.camera) inp s.grid (by simp [hp])
    have h2 := handleClear_skip (togglePause s.paused inp) inp s.grid (by simp [hp])
    have h30 : FPS.tdiv UPDATES_PER_SECOND = 30 := by decide
    refine ⟨h1, ?_⟩
    by_cases hu : s.updates ≥ FPS.tdiv UPDATES_PER_SECOND
    · obtain ⟨g', hg'⟩ := generationStep_isSome s.grid
      have h3 : simulationTick (togglePause s.paused inp) s.grid s.updates = some (g', 0) := by
        rw [simulationTick_fire _ _ _ hp hu, hg']
        rfl
      refine ⟨_, UpdateDrawFrame_eq s inp _ _ _ _ h1 h2 h3, hp, fun _ => ⟨hg'.symm, rfl⟩, ?_⟩
      intro hlt
      rw [h30] at hu
      omega
    · refine ⟨_, UpdateDrawFrame_eq s inp _ _ _ _ h1 h2 (simulationTick_early _ _ _ hu), hp,
        ?_, fun _ => rfl⟩
      intro hge
      rw [h30] at hu
      omega

/-- Instance of C19: the space key and a click at pixel `(40, 40)` in one frame of a
running simulation. -/
theorem pause_toggle_before_click_witness :
    pauseAndClickInput.spacePressed = true ∧ pauseAndClickInput.leftPressed = true ∧
    (0 < (GetScreenToWorld2D pauseAndClickInput.mousePosition playingState.camera).x ∧
      (GetScreenToWorld2D pauseAndClickInput.mousePosition playingState.camera).x < 640 ∧
      0 < (GetScreenToWorld2D pauseAndClickInput.mousePosition playingState.camera).y ∧
      (GetScreenToWorld2D pauseAndClickInput.mousePosition playingState.camera).y < 640) ∧
    playingState.paused = 0 ∧
    ∃ s', UpdateDrawFrame playingState pauseAndClickInput = some s' ∧ s'.paused = 1 :=
  have hin : 0 < (GetScreenToWorld2D pauseAndClickInput.mousePosition playingState.camera).x ∧
      (GetScreenToWorld2D pauseAndClickInput.mousePosition playingState.camera).x < 640 ∧
      0 < (GetScreenToWorld2D pauseAndClickInput.mousePosition playingState.camera).y ∧
      (GetScreenToWorld2D pauseAndClickInput.mousePosition playingState.camera).y < 640 := by
    norm_num [GetScreenToWorld2D, pauseAndClickInput, idleInput, playingState, initialState]
  ⟨rfl, rfl, hin, rfl,
    let ⟨s', _, _, _, _, _, _, hframe, hpaused, _⟩ :=
      (pause_toggle_before_click playingState pauseAndClickInput rfl rfl hin).1 rfl
    ⟨s', hframe, hpaused⟩⟩

/-- C20: the generation step commutes with the horizontal reflection `x -> 19 - x`:
`step (mirror G) = mirror (step G)`, for every grid `G`. -/
theorem generationStep_mirror (g : Grid) :
    generationStep (mirror g) = (generationStep g).map mirror := by
  rw [generationStep_eq, generationStep_eq, Option.map_some']
  congr 1
  funext a b
  rw [neighborSum_mirror]
  show lifeRule (g (Fin.rev a) b) _ = lifeRule (g (Fin.rev a) b) _
  rw [val_rev_cast]

end GameOfLife
